import Mathlib

/-!
# Verification of the Postfix SMTP client error-handler policies

A shallow embedding of `src/postfix/src/smtp/smtp_trouble.c` (the four
disposition-policy entry points `smtp_site_fail`, `smtp_mesg_fail`,
`smtp_rcpt_fail`, `smtp_stream_except` together with the response-code
classifier `smtp_check_code`), and of the per-request deadline tracker
described by the release notes (`src/unnamed/part_000`).

External collaborators (`defer_append`, `bounce_append`, `vdefer_append`,
`vbounce_append`, `deliver_completed`, `msg_info`, `msg_panic`) are not part
of the repository sources; they are modelled as an oracle environment giving
the integer result of each `defer/bounce` call, and every call made to a
collaborator is recorded in an event trace so that theorems can speak about
which collaborator was invoked, with which arguments, and in which order.
Process aborts (`msg_panic`) and dereferences of an absent session are
modelled by an `Except` error result.
-/

set_option maxRecDepth 4000

deriving instance DecidableEq for Except

/-- One destination address of the delivery request
(`RECIPIENT` from `deliver_request.h`, as used by `smtp_trouble.c`):
`offset` is the queue-file offset; `offset = 0` means "already finalized". -/
structure Recipient where
  orig_addr : String
  address : String
  offset : Nat
  deriving DecidableEq

/-- The remote-host identification used for logging (`SMTP_SESSION.namaddr`). -/
structure Session where
  namaddr : String
  deriving DecidableEq

/-- The delivery request (`DELIVER_REQUEST`), restricted to the fields read
or written by `smtp_trouble.c`: queue id, flags, recipient list, arrival
time, and the cached hop status (`NULL` modelled as `none`). -/
structure DeliverRequest where
  queue_id : String
  flags : Int
  rcpt_list : List Recipient
  arrival_time : Nat
  hop_status : Option String
  deriving DecidableEq

/-- The per-attempt state (`SMTP_STATE`), restricted to the fields used by
`smtp_trouble.c`: the request, the optional session (a `NULL` pointer is
`none`), the queue-file source handle `src` (opaque, only passed through to
`deliver_completed`), the cumulative status, the error-classification mask,
and the final-server flag (an `int` used as a boolean in the source). -/
structure SMTP_STATE where
  request : DeliverRequest
  session : Option Session
  src : Nat
  status : Int
  error_mask : Nat
  final_server : Bool
  deriving DecidableEq

/-- The argument tuple passed to `defer_append` / `bounce_append` (and their
`v...` variants): trace flags, queue id, original and effective address,
queue-file offset, host identity, arrival time, and the reason text. -/
structure AppendArgs where
  flags : Int
  queue_id : String
  orig_addr : String
  address : String
  offset : Nat
  namaddr : String
  arrival_time : Nat
  why : String
  deriving DecidableEq

/-- One observable call to an external collaborator, in program order:
an informational log line, a `defer_append`/`bounce_append` call together
with the status it returned, or a `deliver_completed` notification. -/
inductive Event where
  | msgInfo (queue_id : String) (text : String)
  | deferCall (a : AppendArgs) (result : Int)
  | bounceCall (a : AppendArgs) (result : Int)
  | deliverCompleted (src : Nat) (offset : Nat)
  deriving DecidableEq

/-- The oracle environment: the status code each collaborator call returns
(`0` = record persisted, non-zero = failure to persist). -/
structure Env where
  defer_append : AppendArgs → Int
  bounce_append : AppendArgs → Int

/-- Abnormal terminations of an entry point: a `msg_panic` abort on an
unknown stream exception, a dereference of an absent (`NULL`) session, or a
dereference of an invalid recipient pointer. -/
inductive SmtpErr where
  | panicUnknown (code : Int)
  | nullSession
  | badRcpt
  deriving DecidableEq

/-- C `|=` on `int`: bitwise or on two's-complement integers. -/
def cOr (a b : Int) : Int := Int.lor a b

/-- `MAIL_ERROR_PROTOCOL` from `mail_error.h` (header not under `src/`);
a single mask bit whose exact position is immaterial to the claims. -/
def MAIL_ERROR_PROTOCOL : Nat := 2

/-- Modelled from the spec: `DEL_REQ_TRACE_FLAGS` is defined in
`deliver_request.h`, which is not under `src/`; the spec only says the
request's trace/flags value is passed through to the defer/bounce
collaborator, so the extraction is modelled as the identity. -/
def DEL_REQ_TRACE_FLAGS (flags : Int) : Int := flags

/-- `SMTP_ERR_EOF` from `smtp_stream.h` (header not under `src/`): the
"lost connection" exception kind; a distinct constant whose value is
immaterial. -/
def SMTP_ERR_EOF : Int := 1

/-- `SMTP_ERR_TIME` from `smtp_stream.h` (header not under `src/`): the
timeout exception kind; a distinct constant whose value is immaterial. -/
def SMTP_ERR_TIME : Int := 2

/-- `#define SMTP_SOFT(code) (((code) / 100) == 4)` (C division truncates). -/
def SMTP_SOFT (code : Int) : Bool := code.tdiv 100 == 4

/-- `#define SMTP_HARD(code) (((code) / 100) == 5)` (C division truncates). -/
def SMTP_HARD (code : Int) : Bool := code.tdiv 100 == 5

/-- The protocol-anomaly condition tested by `smtp_check_code`:
neither 4xx nor 5xx class, or the literal code 555, or `500 <= code < 510`. -/
def is_protocol_anomaly (code : Int) : Bool :=
  (!SMTP_SOFT code && !SMTP_HARD code) || code == 555
    || (decide (500 ≤ code) && decide (code < 510))

/-- `smtp_check_code`: accumulate `MAIL_ERROR_PROTOCOL` into the error mask
when the response code looks like a protocol anomaly. -/
def smtp_check_code (state : SMTP_STATE) (code : Int) : SMTP_STATE :=
  if is_protocol_anomaly code then
    { state with error_mask := state.error_mask ||| MAIL_ERROR_PROTOCOL }
  else
    state

/-- The spec's Response Classifier contract `classify(code)`, read off the
`SMTP_SOFT`/`SMTP_HARD` macros: Soft iff first digit 4, Hard iff first
digit 5, otherwise Neither. -/
inductive SmtpClass where
  | soft
  | hard
  | neither
  deriving DecidableEq

/-- `classify(code)` in terms of the source's macros. -/
def classify (code : Int) : SmtpClass :=
  if SMTP_SOFT code then .soft else if SMTP_HARD code then .hard else .neither

/-- The argument tuple that `smtp_trouble.c` passes to every
`defer_append`/`bounce_append` call for recipient `r`. -/
def mkAppendArgs (flags : Int) (qid : String) (arrival : Nat) (na : String)
    (why : String) (r : Recipient) : AppendArgs :=
  { flags := flags, queue_id := qid, orig_addr := r.orig_addr,
    address := r.address, offset := r.offset, namaddr := na,
    arrival_time := arrival, why := why }

/-- The defer/bounce collaborator selected by the error class, as in the
source's `(soft_error ? defer_append : bounce_append)`. -/
def appendResult (env : Env) (soft : Bool) (a : AppendArgs) : Int :=
  if soft then env.defer_append a else env.bounce_append a

/-- The trace event of one defer/bounce collaborator call. -/
def appendEvent (soft : Bool) (a : AppendArgs) (result : Int) : Event :=
  if soft then .deferCall a result else .bounceCall a result

/-- The shared finalization loop of `smtp_site_fail` and `smtp_mesg_fail`
(lines 197-211 and 260-274 of `smtp_trouble.c`, textually identical): walk
the recipient list; skip recipients whose offset is 0; for the others call
`defer_append` (soft) or `bounce_append` (hard); on result 0 call
`deliver_completed` with the original offset and clear the offset; or the
result into the running status.  `namaddr` is the host-identity expression:
`smtp_site_fail` passes a total one, `smtp_mesg_fail` dereferences the
session only when the loop body actually runs, hence the `Except`. -/
def failLoop (env : Env) (soft : Bool) (flags : Int) (qid : String)
    (src : Nat) (arrival : Nat) (namaddr : Except SmtpErr String)
    (why : String) :
    Int → List Recipient → Except SmtpErr (List Recipient × Int × List Event)
  | status0, [] => .ok ([], status0, [])
  | status0, r :: rs =>
    if r.offset = 0 then
      match failLoop env soft flags qid src arrival namaddr why status0 rs with
      | .error e => .error e
      | .ok (rs', s, evs) => .ok (r :: rs', s, evs)
    else
      match namaddr with
      | .error e => .error e
      | .ok na =>
        let a := mkAppendArgs flags qid arrival na why r
        let status := appendResult env soft a
        let callEv : Event := appendEvent soft a status
        let (r', ev2) :=
          if status = 0 then
            ({ r with offset := 0 }, [Event.deliverCompleted src r.offset])
          else
            (r, ([] : List Event))
        match failLoop env soft flags qid src arrival namaddr why (cOr status0 status) rs with
        | .error e => .error e
        | .ok (rs', s, evs) => .ok (r' :: rs', s, callEv :: (ev2 ++ evs))

/-- The host identity `smtp_site_fail` passes to the collaborator: the
source's `session ? session->namaddr : "none"`. -/
def siteNamaddr (state : SMTP_STATE) : String :=
  match state.session with
  | some s => s.namaddr
  | none => "none"

/-- `smtp_site_fail`: on a soft error with the final-server flag unset, log
an informational record and or `-1` into the status; otherwise run the
finalization loop (host identity `"none"` when there is no session), cache
the reason as hop status on a first soft error, raise the final-server
flag.  Both paths then run `smtp_check_code` and return `-1`. -/
def smtp_site_fail (env : Env) (state : SMTP_STATE) (code : Int)
    (why : String) : Except SmtpErr (SMTP_STATE × List Event × Int) :=
  let soft := SMTP_SOFT code
  if soft && !state.final_server then
    .ok (smtp_check_code { state with status := cOr state.status (-1) } code,
      [Event.msgInfo state.request.queue_id why], -1)
  else
    let namaddr : Except SmtpErr String := .ok (siteNamaddr state)
    match failLoop env soft (DEL_REQ_TRACE_FLAGS state.request.flags)
        state.request.queue_id state.src state.request.arrival_time
        namaddr why state.status state.request.rcpt_list with
    | .error e => .error e
    | .ok (rl, status, evs) =>
      let hop :=
        if soft = true ∧ state.request.hop_status = none then some why
        else state.request.hop_status
      let state' := { state with
        request := { state.request with rcpt_list := rl, hop_status := hop },
        status := status,
        final_server := true }
      .ok (smtp_check_code state' code, evs, -1)

/-- `smtp_mesg_fail`: identical policy to `smtp_site_fail` except that it
does not populate the hop-status cache and it dereferences
`session->namaddr` (no `NULL` fallback) inside the loop body. -/
def smtp_mesg_fail (env : Env) (state : SMTP_STATE) (code : Int)
    (why : String) : Except SmtpErr (SMTP_STATE × List Event × Int) :=
  let soft := SMTP_SOFT code
  if soft && !state.final_server then
    .ok (smtp_check_code { state with status := cOr state.status (-1) } code,
      [Event.msgInfo state.request.queue_id why], -1)
  else
    let namaddr : Except SmtpErr String :=
      match state.session with
      | some s => .ok s.namaddr
      | none => .error .nullSession
    match failLoop env soft (DEL_REQ_TRACE_FLAGS state.request.flags)
        state.request.queue_id state.src state.request.arrival_time
        namaddr why state.status state.request.rcpt_list with
    | .error e => .error e
    | .ok (rl, status, evs) =>
      let state' := { state with
        request := { state.request with rcpt_list := rl },
        status := status,
        final_server := true }
      .ok (smtp_check_code state' code, evs, -1)

/-- `smtp_rcpt_fail`: on a soft error with the final-server flag unset, log
an informational record for this recipient and use `-1` as the status;
otherwise call `vdefer_append` (soft) or `vbounce_append` (hard) for this
one recipient - with no check of its offset - and on result 0 call
`deliver_completed` and clear the offset.  Never touches the final-server
flag.  Ends with `smtp_check_code` and `state->status |= status`.  The C
recipient pointer into `request->rcpt_list` is modelled as the index `i`. -/
def smtp_rcpt_fail (env : Env) (state : SMTP_STATE) (code : Int) (i : Nat)
    (why : String) : Except SmtpErr (SMTP_STATE × List Event) :=
  match state.request.rcpt_list[i]? with
  | none => .error .badRcpt
  | some rcpt =>
    let soft := SMTP_SOFT code
    if soft && !state.final_server then
      let state' := smtp_check_code state code
      .ok ({ state' with status := cOr state'.status (-1) },
        [Event.msgInfo state.request.queue_id why])
    else
      match state.session with
      | none => .error .nullSession
      | some s =>
        let a := mkAppendArgs (DEL_REQ_TRACE_FLAGS state.request.flags)
          state.request.queue_id state.request.arrival_time s.namaddr why rcpt
        let status := appendResult env soft a
        let callEv : Event := appendEvent soft a status
        let (rcpt', ev2) :=
          if status = 0 then
            ({ rcpt with offset := 0 }, [Event.deliverCompleted state.src rcpt.offset])
          else
            (rcpt, ([] : List Event))
        let state' := smtp_check_code
          { state with request.rcpt_list := state.request.rcpt_list.set i rcpt' } code
        .ok ({ state' with status := cOr state'.status status }, callEv :: ev2)

/-- The deferral loop of `smtp_stream_except` (lines 379-389): walk the
recipient list, skip recipients whose offset is 0, call `defer_append` for
the others and or the result into the running status.  Unlike `failLoop`
it neither calls `deliver_completed` nor clears any offset. -/
def streamLoop (env : Env) (flags : Int) (qid : String) (na : String)
    (arrival : Nat) (why : String) :
    Int → List Recipient → Int × List Event
  | status0, [] => (status0, [])
  | status0, r :: rs =>
    if r.offset = 0 then
      streamLoop env flags qid na arrival why status0 rs
    else
      let a := mkAppendArgs flags qid arrival na why r
      let status := env.defer_append a
      let rest := streamLoop env flags qid na arrival why (cOr status0 status) rs
      (rest.1, Event.deferCall a status :: rest.2)

/-- The reason text `smtp_stream_except` composes from the session identity
and the dialog-stage description, per exception kind. -/
def streamWhy (code : Int) (na : String) (description : String) : String :=
  if code = SMTP_ERR_EOF then
    "lost connection with " ++ na ++ " while " ++ description
  else
    "conversation with " ++ na ++ " timed out while " ++ description

/-- `smtp_stream_except`: panic on an unknown exception code; otherwise
compose the reason from the session identity and the description, then
either log an informational record (final-server flag unset) or defer all
remaining recipients (flag set).  Returns `-1`. -/
def smtp_stream_except (env : Env) (state : SMTP_STATE) (code : Int)
    (description : String) : Except SmtpErr (SMTP_STATE × List Event × Int) :=
  if code = SMTP_ERR_EOF ∨ code = SMTP_ERR_TIME then
    match state.session with
    | none => .error .nullSession
    | some s =>
      let why := streamWhy code s.namaddr description
      if !state.final_server then
        .ok ({ state with status := cOr state.status (-1) },
          [Event.msgInfo state.request.queue_id why], -1)
      else
        let res := streamLoop env (DEL_REQ_TRACE_FLAGS state.request.flags)
          state.request.queue_id s.namaddr state.request.arrival_time why
          state.status state.request.rcpt_list
        .ok ({ state with status := res.1 }, res.2, -1)
  else
    .error (.panicUnknown code)

/-- One invocation of one of the four disposition-policy entry points. -/
inductive Call where
  | site (code : Int) (why : String)
  | mesg (code : Int) (why : String)
  | rcpt (code : Int) (i : Nat) (why : String)
  | stream (code : Int) (description : String)
  deriving DecidableEq

/-- Dispatch one call to the corresponding entry point, forgetting the
`int` return value (always `-1` where present). -/
def callExcept (env : Env) (state : SMTP_STATE) :
    Call → Except SmtpErr (SMTP_STATE × List Event)
  | .site code why => (smtp_site_fail env state code why).map fun r => (r.1, r.2.1)
  | .mesg code why => (smtp_mesg_fail env state code why).map fun r => (r.1, r.2.1)
  | .rcpt code i why => smtp_rcpt_fail env state code i why
  | .stream code d => (smtp_stream_except env state code d).map fun r => (r.1, r.2.1)

/-- One step of the disposition policy: the new state and the emitted
collaborator-call trace; an aborting call (panic or `NULL` dereference)
leaves no successor state, so the state is unchanged and no events occur. -/
def step (env : Env) (state : SMTP_STATE) (c : Call) : SMTP_STATE × List Event :=
  match callExcept env state c with
  | .ok r => r
  | .error _ => (state, [])

/-- The state after one call. -/
def stepState (env : Env) (state : SMTP_STATE) (c : Call) : SMTP_STATE :=
  (step env state c).1

/-- The state after a sequence of calls. -/
def run (env : Env) (state : SMTP_STATE) (cs : List Call) : SMTP_STATE :=
  cs.foldl (stepState env) state

/-- Recipients of the state not yet finalized (non-zero offset). -/
def pendingCount (state : SMTP_STATE) : Nat :=
  (state.request.rcpt_list.filter fun r => !(r.offset == 0)).length

/-- Recipients of the state already finalized (offset zero). -/
def finalizedCount (state : SMTP_STATE) : Nat :=
  (state.request.rcpt_list.filter fun r => r.offset == 0).length

/-- The queue-file offset named by a finalization (defer/bounce) event. -/
def finalizeOffset : Event → Option Nat
  | .deferCall a _ => some a.offset
  | .bounceCall a _ => some a.offset
  | _ => none

/-- Modelled from the spec: the Deadline Tracker (spec section 4.2) is not
implemented under `src/`; `src/unnamed/part_000` only describes it in the
release notes for the `per_request_deadline` / `min_data_rate` parameters.
`remaining` is the current budget in seconds, `ceiling` the absolute cap
(`smtpd_timeout`), `floor_rate` the minimum data rate in bytes/second
(0 disables the extension). -/
structure DeadlineBudget where
  remaining : Int
  ceiling : Int
  floor_rate : Int
  deriving DecidableEq

/-- Modelled from the spec: `start(ceiling, floor_rate)` initializes the
remaining budget to the configured request deadline and records the ceiling
and the floor rate. -/
def DeadlineBudget.start (deadline ceiling floor_rate : Int) : DeadlineBudget :=
  { remaining := deadline, ceiling := ceiling, floor_rate := floor_rate }

/-- Modelled from the spec: `on_read(bytes_transferred, elapsed)` subtracts
`elapsed` from the remaining budget; if `floor_rate` is non-zero and
`bytes_transferred > 0`, adds back `bytes_transferred / floor_rate` seconds;
then clamps the budget to at most `ceiling` (the release notes' "the
deadline is never increased beyond the smtpd_timeout value"). -/
def DeadlineBudget.on_read (b : DeadlineBudget) (bytes : Nat) (elapsed : Int) :
    DeadlineBudget :=
  let r := b.remaining - elapsed
  let r := if b.floor_rate ≠ 0 ∧ 0 < bytes then r + (bytes : Int).tdiv b.floor_rate else r
  { b with remaining := min r b.ceiling }

/-- Modelled from the spec: the tracker is Exhausted when the remaining
budget is `<= 0`; the caller must then raise a Timeout stream exception. -/
def DeadlineBudget.exhausted (b : DeadlineBudget) : Bool :=
  decide (b.remaining ≤ 0)

/-! ## Basic facts about the C bitwise-or -/

theorem ldiff_zero_right (n : Nat) : Nat.ldiff n 0 = n := by
  apply Nat.eq_of_testBit_eq
  intro k
  simp [Nat.testBit_ldiff]

theorem ldiff_zero_left (n : Nat) : Nat.ldiff 0 n = 0 := by
  apply Nat.eq_of_testBit_eq
  intro k
  simp [Nat.testBit_ldiff]

theorem cOr_zero_left (x : Int) : cOr 0 x = x := by
  cases x <;> simp [cOr, Int.lor, ldiff_zero_right, ldiff_zero_left]

theorem cOr_zero_right (x : Int) : cOr x 0 = x := by
  cases x <;> simp [cOr, Int.lor, ldiff_zero_right, ldiff_zero_left]

theorem cOr_neg_one_right (x : Int) : cOr x (-1) = -1 := by
  have h : (-1 : Int) = Int.negSucc 0 := rfl
  rw [h]
  cases x <;> simp [cOr, Int.lor, ldiff_zero_right, ldiff_zero_left]

/-! ## Closed forms for the two finalization loops -/

/-- What one pass of the `failLoop` body does to a recipient, as a function
of the collaborator result `res r`: an already-finalized recipient is left
alone; a pending one has its offset cleared exactly when the collaborator
returned 0. -/
def finalizeMap (res : Recipient → Int) (r : Recipient) : Recipient :=
  if r.offset = 0 then r
  else if res r = 0 then { r with offset := 0 }
  else r

/-- The cumulative status after a finalization loop: the collaborator
results of all pending recipients or-ed onto the incoming status. -/
def loopStatus (res : Recipient → Int) (s0 : Int) (rs : List Recipient) : Int :=
  rs.foldl (fun acc r => if r.offset = 0 then acc else cOr acc (res r)) s0

/-- The trace of a `failLoop` run: per pending recipient, the collaborator
call followed, when it returned 0, by the `deliver_completed` notice. -/
def loopEvents (soft : Bool) (args : Recipient → AppendArgs)
    (res : Recipient → Int) (src : Nat) (rs : List Recipient) : List Event :=
  (rs.filter fun r => !(r.offset == 0)).flatMap fun r =>
    appendEvent soft (args r) (res r) ::
      (if res r = 0 then [Event.deliverCompleted src r.offset] else [])

/-- The trace of a `streamLoop` run: one `defer_append` call per pending
recipient, nothing else. -/
def streamEvents (args : Recipient → AppendArgs) (res : Recipient → Int)
    (rs : List Recipient) : List Event :=
  (rs.filter fun r => !(r.offset == 0)).map fun r => .deferCall (args r) (res r)

theorem failLoop_ok_eq (env : Env) (soft : Bool) (flags : Int) (qid : String)
    (src : Nat) (arrival : Nat) (na : String) (why : String) (s0 : Int)
    (rs : List Recipient) :
    failLoop env soft flags qid src arrival (.ok na) why s0 rs =
      .ok (rs.map (finalizeMap fun r =>
            appendResult env soft (mkAppendArgs flags qid arrival na why r)),
        loopStatus (fun r =>
            appendResult env soft (mkAppendArgs flags qid arrival na why r)) s0 rs,
        loopEvents soft (mkAppendArgs flags qid arrival na why)
          (fun r => appendResult env soft (mkAppendArgs flags qid arrival na why r))
          src rs) := by
  induction rs generalizing s0 with
  | nil => simp [failLoop, loopStatus, loopEvents]
  | cons r rs ih =>
    by_cases h : r.offset = 0
    · simp [failLoop, h, ih, loopStatus, loopEvents, finalizeMap]
    · by_cases hz : appendResult env soft (mkAppendArgs flags qid arrival na why r) = 0
      · simp [failLoop, h, ih, loopStatus, loopEvents, finalizeMap, hz]
      · simp [failLoop, h, ih, loopStatus, loopEvents, finalizeMap, hz]

theorem failLoop_err_all_zero (env : Env) (soft : Bool) (flags : Int)
    (qid : String) (src : Nat) (arrival : Nat) (e : SmtpErr) (why : String)
    (s0 : Int) (rs : List Recipient) (hall : ∀ r ∈ rs, r.offset = 0) :
    failLoop env soft flags qid src arrival (.error e) why s0 rs =
      .ok (rs, s0, []) := by
  induction rs generalizing s0 with
  | nil => simp [failLoop]
  | cons r rs ih =>
    have h : r.offset = 0 := hall r (by simp)
    have ih' := ih s0 (fun x hx => hall x (by simp [hx]))
    simp [failLoop, h, ih']

theorem failLoop_err_pending (env : Env) (soft : Bool) (flags : Int)
    (qid : String) (src : Nat) (arrival : Nat) (e : SmtpErr) (why : String)
    (s0 : Int) (rs : List Recipient) (r0 : Recipient) (hmem : r0 ∈ rs)
    (hp : r0.offset ≠ 0) :
    failLoop env soft flags qid src arrival (.error e) why s0 rs =
      .error e := by
  induction rs generalizing s0 with
  | nil => simp at hmem
  | cons r rs ih =>
    rcases List.mem_cons.mp hmem with h0 | h0
    · subst h0
      simp [failLoop, hp]
    · by_cases h : r.offset = 0
      · simp [failLoop, h, ih s0 h0]
      · simp [failLoop, h]

theorem streamLoop_eq (env : Env) (flags : Int) (qid : String) (na : String)
    (arrival : Nat) (why : String) (s0 : Int) (rs : List Recipient) :
    streamLoop env flags qid na arrival why s0 rs =
      (loopStatus (fun r => env.defer_append (mkAppendArgs flags qid arrival na why r)) s0 rs,
       streamEvents (mkAppendArgs flags qid arrival na why)
        (fun r => env.defer_append (mkAppendArgs flags qid arrival na why r)) rs) := by
  induction rs generalizing s0 with
  | nil => simp [streamLoop, loopStatus, streamEvents]
  | cons r rs ih =>
    by_cases h : r.offset = 0
    · simp [streamLoop, h, ih, loopStatus, streamEvents]
    · simp [streamLoop, h, ih, loopStatus, streamEvents]

/-! ## Closed forms for the four entry points -/

/-- The per-recipient argument tuple of one host-level failure call, given
the host identity `na` and the reason `why`. -/
def hostArgs (state : SMTP_STATE) (na : String) (why : String) :
    Recipient → AppendArgs :=
  mkAppendArgs (DEL_REQ_TRACE_FLAGS state.request.flags) state.request.queue_id
    state.request.arrival_time na why

/-- The collaborator result of one host-level failure call per recipient. -/
def hostRes (env : Env) (soft : Bool) (state : SMTP_STATE) (na : String)
    (why : String) (r : Recipient) : Int :=
  appendResult env soft (hostArgs state na why r)

theorem site_fail_skip (env : Env) (state : SMTP_STATE) (code : Int)
    (why : String) (h : (SMTP_SOFT code && !state.final_server) = true) :
    smtp_site_fail env state code why =
      .ok (smtp_check_code { state with status := cOr state.status (-1) } code,
        [Event.msgInfo state.request.queue_id why], -1) := by
  simp [smtp_site_fail, h]

theorem site_fail_dispo (env : Env) (state : SMTP_STATE) (code : Int)
    (why : String) (h : (SMTP_SOFT code && !state.final_server) = false) :
    smtp_site_fail env state code why =
      .ok (smtp_check_code { state with
          request := { state.request with
            rcpt_list := state.request.rcpt_list.map
              (finalizeMap (hostRes env (SMTP_SOFT code) state (siteNamaddr state) why)),
            hop_status :=
              if SMTP_SOFT code = true ∧ state.request.hop_status = none then some why
              else state.request.hop_status },
          status := loopStatus (hostRes env (SMTP_SOFT code) state (siteNamaddr state) why)
            state.status state.request.rcpt_list,
          final_server := true } code,
        loopEvents (SMTP_SOFT code) (hostArgs state (siteNamaddr state) why)
          (hostRes env (SMTP_SOFT code) state (siteNamaddr state) why)
          state.src state.request.rcpt_list, -1) := by
  simp only [smtp_site_fail, h, Bool.false_eq_true, if_false, failLoop_ok_eq]
  rfl

theorem mesg_fail_skip (env : Env) (state : SMTP_STATE) (code : Int)
    (why : String) (h : (SMTP_SOFT code && !state.final_server) = true) :
    smtp_mesg_fail env state code why =
      .ok (smtp_check_code { state with status := cOr state.status (-1) } code,
        [Event.msgInfo state.request.queue_id why], -1) := by
  simp [smtp_mesg_fail, h]

theorem mesg_fail_dispo (env : Env) (state : SMTP_STATE) (code : Int)
    (why : String) (s : Session) (hs : state.session = some s)
    (h : (SMTP_SOFT code && !state.final_server) = false) :
    smtp_mesg_fail env state code why =
      .ok (smtp_check_code { state with
          request := { state.request with
            rcpt_list := state.request.rcpt_list.map
              (finalizeMap (hostRes env (SMTP_SOFT code) state s.namaddr why)) },
          status := loopStatus (hostRes env (SMTP_SOFT code) state s.namaddr why)
            state.status state.request.rcpt_list,
          final_server := true } code,
        loopEvents (SMTP_SOFT code) (hostArgs state s.namaddr why)
          (hostRes env (SMTP_SOFT code) state s.namaddr why)
          state.src state.request.rcpt_list, -1) := by
  simp only [smtp_mesg_fail, h, hs, Bool.false_eq_true, if_false, failLoop_ok_eq]
  rfl

theorem mesg_fail_none_all_zero (env : Env) (state : SMTP_STATE) (code : Int)
    (why : String) (hs : state.session = none)
    (h : (SMTP_SOFT code && !state.final_server) = false)
    (hall : ∀ r ∈ state.request.rcpt_list, r.offset = 0) :
    smtp_mesg_fail env state code why =
      .ok (smtp_check_code { state with final_server := true } code, [], -1) := by
  simp [smtp_mesg_fail, h, hs, failLoop_err_all_zero _ _ _ _ _ _ _ _ _ _ hall]

theorem mesg_fail_none_pending (env : Env) (state : SMTP_STATE) (code : Int)
    (why : String) (hs : state.session = none)
    (h : (SMTP_SOFT code && !state.final_server) = false)
    (r0 : Recipient) (hmem : r0 ∈ state.request.rcpt_list) (hp : r0.offset ≠ 0) :
    smtp_mesg_fail env state code why = .error .nullSession := by
  simp [smtp_mesg_fail, h, hs,
    failLoop_err_pending _ _ _ _ _ _ _ _ _ _ r0 hmem hp]

/-! ## Membership in the loop traces -/

theorem loopEvents_mem {soft : Bool} {args : Recipient → AppendArgs}
    {res : Recipient → Int} {src : Nat} {rs : List Recipient} {ev : Event}
    (h : ev ∈ loopEvents soft args res src rs) :
    (∃ r ∈ rs, r.offset ≠ 0 ∧ ev = appendEvent soft (args r) (res r)) ∨
    (∃ r ∈ rs, r.offset ≠ 0 ∧ res r = 0 ∧ ev = Event.deliverCompleted src r.offset) := by
  unfold loopEvents at h
  rw [List.mem_flatMap] at h
  obtain ⟨r, hr, hev⟩ := h
  rw [List.mem_filter] at hr
  have hp : r.offset ≠ 0 := by simpa using hr.2
  rcases List.mem_cons.mp hev with h0 | h0
  · exact Or.inl ⟨r, hr.1, hp, h0⟩
  · by_cases hz : res r = 0
    · rw [if_pos hz] at h0
      simp only [List.mem_singleton] at h0
      exact Or.inr ⟨r, hr.1, hp, hz, h0⟩
    · rw [if_neg hz] at h0
      simp at h0

theorem loopEvents_deliver_mem {soft : Bool} {args : Recipient → AppendArgs}
    {res : Recipient → Int} {src : Nat} {rs : List Recipient} {r : Recipient}
    (hmem : r ∈ rs) (hp : r.offset ≠ 0) (hz : res r = 0) :
    Event.deliverCompleted src r.offset ∈ loopEvents soft args res src rs := by
  unfold loopEvents
  rw [List.mem_flatMap]
  refine ⟨r, List.mem_filter.mpr ⟨hmem, by simpa using hp⟩, ?_⟩
  simp [hz]

theorem loopEvents_call_mem {soft : Bool} {args : Recipient → AppendArgs}
    {res : Recipient → Int} {src : Nat} {rs : List Recipient} {r : Recipient}
    (hmem : r ∈ rs) (hp : r.offset ≠ 0) :
    appendEvent soft (args r) (res r) ∈ loopEvents soft args res src rs := by
  unfold loopEvents
  rw [List.mem_flatMap]
  exact ⟨r, List.mem_filter.mpr ⟨hmem, by simpa using hp⟩, by simp⟩

theorem streamEvents_mem {args : Recipient → AppendArgs}
    {res : Recipient → Int} {rs : List Recipient} {ev : Event}
    (h : ev ∈ streamEvents args res rs) :
    ∃ r ∈ rs, r.offset ≠ 0 ∧ ev = Event.deferCall (args r) (res r) := by
  unfold streamEvents at h
  rw [List.mem_map] at h
  obtain ⟨r, hr, hev⟩ := h
  rw [List.mem_filter] at hr
  exact ⟨r, hr.1, by simpa using hr.2, hev.symm⟩

theorem stream_except_panic (env : Env) (state : SMTP_STATE) (code : Int)
    (description : String) (h1 : code ≠ SMTP_ERR_EOF) (h2 : code ≠ SMTP_ERR_TIME) :
    smtp_stream_except env state code description = .error (.panicUnknown code) := by
  simp [smtp_stream_except, h1, h2]

theorem stream_except_no_session (env : Env) (state : SMTP_STATE) (code : Int)
    (description : String) (hk : code = SMTP_ERR_EOF ∨ code = SMTP_ERR_TIME)
    (hs : state.session = none) :
    smtp_stream_except env state code description = .error .nullSession := by
  simp [smtp_stream_except, hk, hs]

theorem stream_except_skip (env : Env) (state : SMTP_STATE) (code : Int)
    (description : String) (s : Session)
    (hk : code = SMTP_ERR_EOF ∨ code = SMTP_ERR_TIME)
    (hs : state.session = some s) (hf : state.final_server = false) :
    smtp_stream_except env state code description =
      .ok ({ state with status := cOr state.status (-1) },
        [Event.msgInfo state.request.queue_id (streamWhy code s.namaddr description)],
        -1) := by
  simp [smtp_stream_except, hk, hs, hf]

theorem stream_except_final (env : Env) (state : SMTP_STATE) (code : Int)
    (description : String) (s : Session)
    (hk : code = SMTP_ERR_EOF ∨ code = SMTP_ERR_TIME)
    (hs : state.session = some s) (hf : state.final_server = true) :
    smtp_stream_except env state code description =
      .ok ({ state with
          status := loopStatus
            (fun r => env.defer_append
              (hostArgs state s.namaddr (streamWhy code s.namaddr description) r))
            state.status state.request.rcpt_list },
        streamEvents (hostArgs state s.namaddr (streamWhy code s.namaddr description))
          (fun r => env.defer_append
            (hostArgs state s.namaddr (streamWhy code s.namaddr description) r))
          state.request.rcpt_list, -1) := by
  simp only [smtp_stream_except, if_pos hk, hs, hf, Bool.not_true,
    Bool.false_eq_true, if_false, streamLoop_eq]
  rfl

/-! ## Field bookkeeping -/

@[simp]
theorem smtp_check_code_request (state : SMTP_STATE) (code : Int) :
    (smtp_check_code state code).request = state.request := by
  unfold smtp_check_code
  split <;> rfl

@[simp]
theorem smtp_check_code_session (state : SMTP_STATE) (code : Int) :
    (smtp_check_code state code).session = state.session := by
  unfold smtp_check_code
  split <;> rfl

@[simp]
theorem smtp_check_code_status (state : SMTP_STATE) (code : Int) :
    (smtp_check_code state code).status = state.status := by
  unfold smtp_check_code
  split <;> rfl

@[simp]
theorem smtp_check_code_final_server (state : SMTP_STATE) (code : Int) :
    (smtp_check_code state code).final_server = state.final_server := by
  unfold smtp_check_code
  split <;> rfl

@[simp]
theorem smtp_check_code_src (state : SMTP_STATE) (code : Int) :
    (smtp_check_code state code).src = state.src := by
  unfold smtp_check_code
  split <;> rfl

theorem smtp_check_code_error_mask (state : SMTP_STATE) (code : Int) :
    (smtp_check_code state code).error_mask =
      if is_protocol_anomaly code then state.error_mask ||| MAIL_ERROR_PROTOCOL
      else state.error_mask := by
  unfold smtp_check_code
  split <;> simp_all

theorem finalizeMap_zero {res : Recipient → Int} {r : Recipient}
    (h : r.offset = 0) : finalizeMap res r = r := by
  simp [finalizeMap, h]

theorem finalizeMap_cases (res : Recipient → Int) (r : Recipient) :
    finalizeMap res r = r ∨ (r.offset ≠ 0 ∧ finalizeMap res r = { r with offset := 0 }) := by
  unfold finalizeMap
  by_cases h : r.offset = 0
  · simp [h]
  · by_cases hz : res r = 0
    · simp [h, hz]
    · simp [h, hz]

/-- Finalized plus pending recipients always partition the ledger. -/
theorem count_split (state : SMTP_STATE) :
    finalizedCount state + pendingCount state = state.request.rcpt_list.length := by
  unfold finalizedCount pendingCount
  induction state.request.rcpt_list with
  | nil => simp
  | cons r rs ih =>
    by_cases h : r.offset = 0
    · simp [List.filter_cons, h]
      omega
    · simp [List.filter_cons, h]
      omega

/-- A recipient-failure call aimed at a still-pending recipient (the
caller-side contract under which `smtp_rcpt_fail` is reached in the
driver); vacuous for the other three entry points. -/
def rcptCallPending (state : SMTP_STATE) : Call → Prop
  | .rcpt _ i _ => ∀ r, state.request.rcpt_list[i]? = some r → r.offset ≠ 0
  | _ => True

theorem stepState_rcpt_list_spec (env : Env) (state : SMTP_STATE) (c : Call) :
    (stepState env state c).request.rcpt_list = state.request.rcpt_list ∨
    (∃ res : Recipient → Int,
      (stepState env state c).request.rcpt_list =
        state.request.rcpt_list.map (finalizeMap res)) ∨
    (∃ i rcpt rcpt', state.request.rcpt_list[i]? = some rcpt ∧
      (rcpt' = rcpt ∨ rcpt' = { rcpt with offset := 0 }) ∧
      (stepState env state c).request.rcpt_list = state.request.rcpt_list.set i rcpt') := by
  cases c with
  | site code why =>
    cases hb : (SMTP_SOFT code && !state.final_server) with
    | true =>
      left
      simp [stepState, step, callExcept, site_fail_skip _ _ _ _ hb, Except.map]
    | false =>
      right; left
      refine ⟨hostRes env (SMTP_SOFT code) state (siteNamaddr state) why, ?_⟩
      simp [stepState, step, callExcept, site_fail_dispo _ _ _ _ hb, Except.map]
  | mesg code why =>
    cases hb : (SMTP_SOFT code && !state.final_server) with
    | true =>
      left
      simp [stepState, step, callExcept, mesg_fail_skip _ _ _ _ hb, Except.map]
    | false =>
      cases hs : state.session with
      | some s =>
        right; left
        refine ⟨hostRes env (SMTP_SOFT code) state s.namaddr why, ?_⟩
        simp [stepState, step, callExcept, mesg_fail_dispo _ _ _ _ s hs hb, Except.map]
      | none =>
        by_cases hall : ∀ r ∈ state.request.rcpt_list, r.offset = 0
        · left
          simp [stepState, step, callExcept,
            mesg_fail_none_all_zero _ _ _ _ hs hb hall, Except.map]
        · push_neg at hall
          obtain ⟨r0, hmem, hp⟩ := hall
          left
          simp [stepState, step, callExcept,
            mesg_fail_none_pending _ _ _ _ hs hb r0 hmem hp, Except.map]
  | rcpt code i why =>
    cases hget : state.request.rcpt_list[i]? with
    | none =>
      left
      simp [stepState, step, callExcept, smtp_rcpt_fail, hget]
    | some rcpt =>
      cases hb : (SMTP_SOFT code && !state.final_server) with
      | true =>
        left
        simp [stepState, step, callExcept, smtp_rcpt_fail, hget, hb]
      | false =>
        cases hs : state.session with
        | none =>
          left
          simp [stepState, step, callExcept, smtp_rcpt_fail, hget, hb, hs]
        | some s =>
          right; right
          refine ⟨i, rcpt,
            if appendResult env (SMTP_SOFT code)
                (mkAppendArgs (DEL_REQ_TRACE_FLAGS state.request.flags)
                  state.request.queue_id state.request.arrival_time
                  s.namaddr why rcpt) = 0
              then { rcpt with offset := 0 } else rcpt, hget, ?_, ?_⟩
          · by_cases hz : appendResult env (SMTP_SOFT code)
                (mkAppendArgs (DEL_REQ_TRACE_FLAGS state.request.flags)
                  state.request.queue_id state.request.arrival_time
                  s.namaddr why rcpt) = 0
            · right
              simp [hz]
            · left
              simp [hz]
          · by_cases hz : appendResult env (SMTP_SOFT code)
                (mkAppendArgs (DEL_REQ_TRACE_FLAGS state.request.flags)
                  state.request.queue_id state.request.arrival_time
                  s.namaddr why rcpt) = 0
            · simp [stepState, step, callExcept, smtp_rcpt_fail, hget, hb, hs, hz]
            · simp [stepState, step, callExcept, smtp_rcpt_fail, hget, hb, hs, hz]
  | stream code d =>
    left
    by_cases hk : code = SMTP_ERR_EOF ∨ code = SMTP_ERR_TIME
    · cases hs : state.session with
      | none =>
        simp [stepState, step, callExcept, Except.map,
          stream_except_no_session _ _ _ _ hk hs]
      | some s =>
        cases hf : state.final_server with
        | false =>
          simp [stepState, step, callExcept,
            stream_except_skip _ _ _ _ s hk hs hf, Except.map]
        | true =>
          simp [stepState, step, callExcept,
            stream_except_final _ _ _ _ s hk hs hf, Except.map]
    · have h1 : code ≠ SMTP_ERR_EOF := fun h => hk (Or.inl h)
      have h2 : code ≠ SMTP_ERR_TIME := fun h => hk (Or.inr h)
      simp [stepState, step, callExcept, Except.map,
        stream_except_panic _ _ _ _ h1 h2]

theorem stepState_length (env : Env) (state : SMTP_STATE) (c : Call) :
    (stepState env state c).request.rcpt_list.length =
      state.request.rcpt_list.length := by
  rcases stepState_rcpt_list_spec env state c with hl | ⟨res, hl⟩ | ⟨j, rcpt, rcpt', _, _, hl⟩
  · rw [hl]
  · rw [hl, List.length_map]
  · rw [hl, List.length_set]

theorem stepState_marker (env : Env) (state : SMTP_STATE) (c : Call) (i : Nat)
    (r' : Recipient)
    (h : (stepState env state c).request.rcpt_list[i]? = some r') :
    ∃ r, state.request.rcpt_list[i]? = some r ∧
      (r' = r ∨ r' = { r with offset := 0 }) := by
  rcases stepState_rcpt_list_spec env state c with hl | ⟨res, hl⟩ | ⟨j, rcpt, rcpt', hget, hcase, hl⟩
  · exact ⟨r', by rwa [hl] at h, Or.inl rfl⟩
  · rw [hl, List.getElem?_map] at h
    obtain ⟨r, hr, hmap⟩ := Option.map_eq_some'.mp h
    rcases finalizeMap_cases res r with hc | ⟨_, hc⟩
    · exact ⟨r, hr, Or.inl (by rw [← hmap, hc])⟩
    · exact ⟨r, hr, Or.inr (by rw [← hmap, hc])⟩
  · rw [hl, List.getElem?_set] at h
    by_cases hij : j = i
    · subst hij
      have hlen : j < state.request.rcpt_list.length :=
        (List.getElem?_eq_some.mp hget).1
      rw [if_pos rfl, if_pos hlen] at h
      obtain rfl : rcpt' = r' := by injection h
      rcases hcase with hc | hc
      · exact ⟨rcpt, hget, Or.inl hc⟩
      · exact ⟨rcpt, hget, Or.inr hc⟩
    · rw [if_neg hij] at h
      exact ⟨r', h, Or.inl rfl⟩

theorem stepState_zero_stays (env : Env) (state : SMTP_STATE) (c : Call)
    (i : Nat) (r : Recipient) (hin : state.request.rcpt_list[i]? = some r)
    (h0 : r.offset = 0) :
    (stepState env state c).request.rcpt_list[i]? = some r := by
  have hzr : ({ r with offset := 0 } : Recipient) = r := by
    cases r
    simp_all
  rcases stepState_rcpt_list_spec env state c with hl | ⟨res, hl⟩ | ⟨j, rcpt, rcpt', hget, hcase, hl⟩
  · rw [hl, hin]
  · rw [hl, List.getElem?_map, hin, Option.map_some', finalizeMap_zero h0]
  · rw [hl, List.getElem?_set]
    by_cases hij : j = i
    · subst hij
      have hlen : j < state.request.rcpt_list.length :=
        (List.getElem?_eq_some.mp hget).1
      rw [if_pos rfl, if_pos hlen]
      obtain rfl : rcpt = r := by
        rw [hget] at hin
        injection hin
      rcases hcase with hc | hc
      · rw [hc]
      · rw [hc, hzr]
    · rw [if_neg hij]
      exact hin

theorem stepState_final_mono (env : Env) (state : SMTP_STATE) (c : Call)
    (h : state.final_server = true) :
    (stepState env state c).final_server = true := by
  have hnb : ∀ code : Int, (SMTP_SOFT code && !state.final_server) = false := by
    intro code
    rw [h]
    simp
  cases c with
  | site code why =>
    simp [stepState, step, callExcept, site_fail_dispo _ _ _ _ (hnb code), Except.map]
  | mesg code why =>
    cases hs : state.session with
    | some s =>
      simp [stepState, step, callExcept, mesg_fail_dispo _ _ _ _ s hs (hnb code),
        Except.map]
    | none =>
      by_cases hall : ∀ r ∈ state.request.rcpt_list, r.offset = 0
      · simp [stepState, step, callExcept,
          mesg_fail_none_all_zero _ _ _ _ hs (hnb code) hall, Except.map]
      · push_neg at hall
        obtain ⟨r0, hmem, hp⟩ := hall
        simp [stepState, step, callExcept,
          mesg_fail_none_pending _ _ _ _ hs (hnb code) r0 hmem hp, Except.map, h]
  | rcpt code i why =>
    cases hget : state.request.rcpt_list[i]? with
    | none =>
      simp [stepState, step, callExcept, smtp_rcpt_fail, hget, h]
    | some rcpt =>
      cases hs : state.session with
      | none =>
        simp [stepState, step, callExcept, smtp_rcpt_fail, hget, hnb code, hs, h]
      | some s =>
        by_cases hz : appendResult env (SMTP_SOFT code)
            (mkAppendArgs (DEL_REQ_TRACE_FLAGS state.request.flags)
              state.request.queue_id state.request.arrival_time
              s.namaddr why rcpt) = 0
        · simp [stepState, step, callExcept, smtp_rcpt_fail, hget, hnb code, hs, hz, h]
        · simp [stepState, step, callExcept, smtp_rcpt_fail, hget, hnb code, hs, hz, h]
  | stream code d =>
    by_cases hk : code = SMTP_ERR_EOF ∨ code = SMTP_ERR_TIME
    · cases hs : state.session with
      | none =>
        simp [stepState, step, callExcept, Except.map,
          stream_except_no_session _ _ _ _ hk hs, h]
      | some s =>
        simp [stepState, step, callExcept, Except.map,
          stream_except_final _ _ _ _ s hk hs h, h]
    · have h1 : code ≠ SMTP_ERR_EOF := fun hx => hk (Or.inl hx)
      have h2 : code ≠ SMTP_ERR_TIME := fun hx => hk (Or.inr hx)
      simp [stepState, step, callExcept, Except.map,
        stream_except_panic _ _ _ _ h1 h2, h]

theorem finalizeOffset_appendEvent (soft : Bool) (a : AppendArgs) (res : Int) :
    finalizeOffset (appendEvent soft a res) = some a.offset := by
  cases soft <;> simp [appendEvent, finalizeOffset]

theorem hostArgs_offset (state : SMTP_STATE) (na why : String) (r : Recipient) :
    (hostArgs state na why r).offset = r.offset := rfl

theorem step_events_offsets (env : Env) (state : SMTP_STATE) (c : Call)
    (hc : rcptCallPending state c) :
    ∀ ev ∈ (step env state c).2, ∀ o, finalizeOffset ev = some o → o ≠ 0 := by
  cases c with
  | site code why =>
    intro ev hev o ho
    cases hb : (SMTP_SOFT code && !state.final_server) with
    | true =>
      rw [step, callExcept, site_fail_skip _ _ _ _ hb] at hev
      simp [Except.map] at hev
      subst hev
      simp [finalizeOffset] at ho
    | false =>
      rw [step, callExcept, site_fail_dispo _ _ _ _ hb] at hev
      simp only [Except.map] at hev
      rcases loopEvents_mem hev with ⟨r, _, hp, rfl⟩ | ⟨r, _, _, _, rfl⟩
      · rw [finalizeOffset_appendEvent] at ho
        obtain rfl : o = r.offset := by
          have := ho.symm
          injection this
        exact hp
      · simp [finalizeOffset] at ho
  | mesg code why =>
    intro ev hev o ho
    cases hb : (SMTP_SOFT code && !state.final_server) with
    | true =>
      rw [step, callExcept, mesg_fail_skip _ _ _ _ hb] at hev
      simp [Except.map] at hev
      subst hev
      simp [finalizeOffset] at ho
    | false =>
      cases hs : state.session with
      | some s =>
        rw [step, callExcept, mesg_fail_dispo _ _ _ _ s hs hb] at hev
        simp only [Except.map] at hev
        rcases loopEvents_mem hev with ⟨r, _, hp, rfl⟩ | ⟨r, _, _, _, rfl⟩
        · rw [finalizeOffset_appendEvent] at ho
          obtain rfl : o = r.offset := by
            have := ho.symm
            injection this
          exact hp
        · simp [finalizeOffset] at ho
      | none =>
        by_cases hall : ∀ r ∈ state.request.rcpt_list, r.offset = 0
        · rw [step, callExcept, mesg_fail_none_all_zero _ _ _ _ hs hb hall] at hev
          simp [Except.map] at hev
        · push_neg at hall
          obtain ⟨r0, hmem, hp0⟩ := hall
          rw [step, callExcept, mesg_fail_none_pending _ _ _ _ hs hb r0 hmem hp0] at hev
          simp [Except.map] at hev
  | rcpt code i why =>
    intro ev hev o ho
    cases hget : state.request.rcpt_list[i]? with
    | none =>
      rw [step, callExcept, smtp_rcpt_fail, hget] at hev
      simp at hev
    | some rcpt =>
      have hp : rcpt.offset ≠ 0 := hc rcpt hget
      cases hb : (SMTP_SOFT code && !state.final_server) with
      | true =>
        rw [step, callExcept, smtp_rcpt_fail, hget] at hev
        simp [hb] at hev
        subst hev
        simp [finalizeOffset] at ho
      | false =>
        cases hs : state.session with
        | none =>
          rw [step, callExcept, smtp_rcpt_fail, hget] at hev
          simp [hb, hs] at hev
        | some s =>
          by_cases hz : appendResult env (SMTP_SOFT code)
              (mkAppendArgs (DEL_REQ_TRACE_FLAGS state.request.flags)
                state.request.queue_id state.request.arrival_time
                s.namaddr why rcpt) = 0
          · rw [step, callExcept, smtp_rcpt_fail, hget] at hev
            simp [hb, hs, hz] at hev
            rcases hev with hev | hev
            · subst hev
              rw [finalizeOffset_appendEvent] at ho
              obtain rfl : o = rcpt.offset := by
                have := ho.symm
                injection this
              exact hp
            · subst hev
              simp [finalizeOffset] at ho
          · rw [step, callExcept, smtp_rcpt_fail, hget] at hev
            simp [hb, hs, hz] at hev
            subst hev
            rw [finalizeOffset_appendEvent] at ho
            obtain rfl : o = rcpt.offset := by
              have := ho.symm
              injection this
            exact hp
  | stream code d =>
    intro ev hev o ho
    by_cases hk : code = SMTP_ERR_EOF ∨ code = SMTP_ERR_TIME
    · cases hs : state.session with
      | none =>
        rw [step, callExcept, stream_except_no_session _ _ _ _ hk hs] at hev
        simp [Except.map] at hev
      | some s =>
        cases hf : state.final_server with
        | false =>
          rw [step, callExcept, stream_except_skip _ _ _ _ s hk hs hf] at hev
          simp [Except.map] at hev
          subst hev
          simp [finalizeOffset] at ho
        | true =>
          rw [step, callExcept, stream_except_final _ _ _ _ s hk hs hf] at hev
          simp only [Except.map] at hev
          obtain ⟨r, _, hp, rfl⟩ := streamEvents_mem hev
          obtain rfl : o = r.offset := by
            have : finalizeOffset (Event.deferCall
                (hostArgs state s.namaddr (streamWhy code s.namaddr d) r)
                (env.defer_append
                  (hostArgs state s.namaddr (streamWhy code s.namaddr d) r))) =
                some r.offset := rfl
            rw [this] at ho
            injection ho.symm
          exact hp
    · have h1 : code ≠ SMTP_ERR_EOF := fun hx => hk (Or.inl hx)
      have h2 : code ≠ SMTP_ERR_TIME := fun hx => hk (Or.inr hx)
      rw [step, callExcept, stream_except_panic _ _ _ _ h1 h2] at hev
      simp [Except.map] at hev

theorem run_length (env : Env) (state : SMTP_STATE) (cs : List Call) :
    (run env state cs).request.rcpt_list.length =
      state.request.rcpt_list.length := by
  induction cs generalizing state with
  | nil => rfl
  | cons c cs ih =>
    exact (ih (stepState env state c)).trans (stepState_length env state c)

theorem run_final_mono (env : Env) (state : SMTP_STATE) (cs : List Call)
    (h : state.final_server = true) :
    (run env state cs).final_server = true := by
  induction cs generalizing state with
  | nil => exact h
  | cons c cs ih =>
    exact ih (stepState env state c) (stepState_final_mono env state c h)

/-! ## Range characterizations of the classifier macros -/

theorem SMTP_SOFT_iff (code : Int) (h0 : 0 ≤ code) :
    SMTP_SOFT code = true ↔ 400 ≤ code ∧ code < 500 := by
  obtain ⟨n, rfl⟩ : ∃ n : Nat, code = (n : Int) :=
    ⟨code.toNat, (Int.toNat_of_nonneg h0).symm⟩
  have hdiv : (n : Int).tdiv 100 = ((n / 100 : Nat) : Int) := rfl
  simp only [SMTP_SOFT, hdiv, beq_iff_eq]
  constructor
  · intro h
    have hn : n / 100 = 4 := by exact_mod_cast h
    have hr : 400 ≤ n ∧ n < 500 := by omega
    exact ⟨by exact_mod_cast hr.1, by exact_mod_cast hr.2⟩
  · rintro ⟨ha, hb⟩
    have ha' : 400 ≤ n := by exact_mod_cast ha
    have hb' : n < 500 := by exact_mod_cast hb
    have : n / 100 = 4 := by omega
    exact_mod_cast this

theorem SMTP_HARD_iff (code : Int) (h0 : 0 ≤ code) :
    SMTP_HARD code = true ↔ 500 ≤ code ∧ code < 600 := by
  obtain ⟨n, rfl⟩ : ∃ n : Nat, code = (n : Int) :=
    ⟨code.toNat, (Int.toNat_of_nonneg h0).symm⟩
  have hdiv : (n : Int).tdiv 100 = ((n / 100 : Nat) : Int) := rfl
  simp only [SMTP_HARD, hdiv, beq_iff_eq]
  constructor
  · intro h
    have hn : n / 100 = 5 := by exact_mod_cast h
    have hr : 500 ≤ n ∧ n < 600 := by omega
    exact ⟨by exact_mod_cast hr.1, by exact_mod_cast hr.2⟩
  · rintro ⟨ha, hb⟩
    have ha' : 500 ≤ n := by exact_mod_cast ha
    have hb' : n < 600 := by exact_mod_cast hb
    have : n / 100 = 5 := by omega
    exact_mod_cast this

/-! ## Concrete fixtures used by the witnesses and counterexamples -/

/-- A still-pending recipient (non-zero queue-file offset). -/
def rcptP : Recipient := { orig_addr := "orig@example.org", address := "user@example.org", offset := 5 }

/-- An already-finalized recipient (offset zero). -/
def rcptF : Recipient := { orig_addr := "other@example.org", address := "second@example.org", offset := 0 }

/-- A two-recipient request, one pending and one finalized. -/
def reqW : DeliverRequest :=
  { queue_id := "QID42", flags := 0, rcpt_list := [rcptP, rcptF],
    arrival_time := 7, hop_status := none }

/-- The active session fixture. -/
def sessW : Session := { namaddr := "mx.example[192.0.2.1]" }

/-- Collaborators that always persist successfully. -/
def envOk : Env := { defer_append := fun _ => 0, bounce_append := fun _ => 0 }

/-- Collaborators that always fail to persist (non-zero status). -/
def envBad : Env := { defer_append := fun _ => 9, bounce_append := fun _ => 9 }

/-- Fixture state on the final server. -/
def stFinal : SMTP_STATE :=
  { request := reqW, session := some sessW, src := 3, status := 0,
    error_mask := 0, final_server := true }

/-- Fixture state with further servers left to try. -/
def stNonfinal : SMTP_STATE := { stFinal with final_server := false }

/-- Fixture state with no active session. -/
def stNoSession : SMTP_STATE := { stNonfinal with session := none }

theorem classify_eq_soft_iff (code : Int) :
    classify code = SmtpClass.soft ↔ SMTP_SOFT code = true := by
  unfold classify
  cases hsb : SMTP_SOFT code <;> cases hhb : SMTP_HARD code <;> simp

theorem classify_eq_hard_iff (code : Int) :
    classify code = SmtpClass.hard ↔
      (SMTP_SOFT code = false ∧ SMTP_HARD code = true) := by
  unfold classify
  cases hsb : SMTP_SOFT code <;> cases hhb : SMTP_HARD code <;> simp

theorem classify_eq_neither_iff (code : Int) :
    classify code = SmtpClass.neither ↔
      (SMTP_SOFT code = false ∧ SMTP_HARD code = false) := by
  unfold classify
  cases hsb : SMTP_SOFT code <;> cases hhb : SMTP_HARD code <;> simp

/-- C7 counterexample: the code 555 is in the 5xx class, so the classifier
maps it to Hard, not Neither as the claim's example list states (it is a
protocol anomaly, as claimed). -/
theorem classify_555_not_neither :
    classify 555 = SmtpClass.hard ∧ classify 555 ≠ SmtpClass.neither ∧
      is_protocol_anomaly 555 = true := by
  decide

/-- C7 (amended): for every 3-digit code the classifier maps first digit 4
(codes 400-499) to Soft, first digit 5 (codes 500-599) to Hard, everything
else to Neither; the protocol-anomaly predicate holds exactly when the
class digit is neither 4 nor 5, or the code is 555, or the code lies in
the reserved 500-509 syntax-error sub-range.  450, 421, 499 are Soft;
550, 552, 503 are Hard; 250 and 354 are Neither; 555 is Hard (not
Neither) and an anomaly; 501 is Hard and an anomaly. -/
theorem classifier_policy (code : Int) (h1 : 100 ≤ code) (h2 : code ≤ 999) :
    (classify code = SmtpClass.soft ↔ 400 ≤ code ∧ code < 500) ∧
    (classify code = SmtpClass.hard ↔ 500 ≤ code ∧ code < 600) ∧
    (classify code = SmtpClass.neither ↔ ¬(400 ≤ code ∧ code < 600)) ∧
    (is_protocol_anomaly code = true ↔
      (¬(400 ≤ code ∧ code < 600) ∨ code = 555 ∨ (500 ≤ code ∧ code < 510))) ∧
    classify 450 = SmtpClass.soft ∧ classify 421 = SmtpClass.soft ∧
    classify 499 = SmtpClass.soft ∧ classify 550 = SmtpClass.hard ∧
    classify 552 = SmtpClass.hard ∧ classify 503 = SmtpClass.hard ∧
    classify 250 = SmtpClass.neither ∧ classify 354 = SmtpClass.neither ∧
    classify 555 = SmtpClass.hard ∧ is_protocol_anomaly 555 = true ∧
    classify 501 = SmtpClass.hard ∧ is_protocol_anomaly 501 = true := by
  have h0 : (0 : Int) ≤ code := by omega
  have hs := SMTP_SOFT_iff code h0
  have hh := SMTP_HARD_iff code h0
  have hsf : SMTP_SOFT code = false ↔ ¬(400 ≤ code ∧ code < 500) := by
    rw [← hs]
    constructor
    · intro hx
      simp [hx]
    · intro hx
      simpa using hx
  have hhf : SMTP_HARD code = false ↔ ¬(500 ≤ code ∧ code < 600) := by
    rw [← hh]
    constructor
    · intro hx
      simp [hx]
    · intro hx
      simpa using hx
  refine ⟨?_, ?_, ?_, ?_, by decide, by decide, by decide, by decide, by decide,
    by decide, by decide, by decide, by decide, by decide, by decide, by decide⟩
  · rw [classify_eq_soft_iff, hs]
  · rw [classify_eq_hard_iff]
    constructor
    · rintro ⟨_, hht⟩
      exact hh.mp hht
    · intro hr
      refine ⟨hsf.mpr ?_, hh.mpr hr⟩
      omega
  · rw [classify_eq_neither_iff, hsf, hhf]
    omega
  · simp only [is_protocol_anomaly, Bool.or_eq_true, Bool.and_eq_true,
      Bool.not_eq_true', beq_iff_eq, decide_eq_true_eq, hsf, hhf]
    omega

/-- Witness for the C7 theorem at the concrete code 555. -/
theorem classifier_policy_witness :
    classify 555 = SmtpClass.hard ↔ 500 ≤ (555 : Int) ∧ (555 : Int) < 600 :=
  (classifier_policy 555 (by decide) (by decide)).2.1

/-- C4 counterexample: starting from budget 100 with ceiling 100 and floor
rate 500, the spec's own update rule yields remaining budgets 99, 49, -11
for the example reads, not the 99, 50, -10 the example asserts: the second
and third figures ignore the one-second net loss of the first read. -/
theorem deadline_example_mismatch :
    (((DeadlineBudget.start 100 100 500).on_read 1000 3).on_read 0 50).remaining = 49 ∧
    ¬((((DeadlineBudget.start 100 100 500).on_read 1000 3).on_read 0 50).remaining = 50) ∧
    ((((DeadlineBudget.start 100 100 500).on_read 1000 3).on_read 0 50).on_read 0 60).remaining = -11 ∧
    ¬(((((DeadlineBudget.start 100 100 500).on_read 1000 3).on_read 0 50).on_read 0 60).remaining = -10) := by
  decide

/-- C4 (amended, modelled from the spec): `on_read` subtracts the elapsed
time, adds back `bytes / floor_rate` when the floor rate is enabled and
bytes were transferred, and clamps to the ceiling; on the spec's example
sequence (ceiling 100s, floor rate 500 B/s, start 100s; reads of 1000 B in
3s, 0 B in 50s, 0 B in 60s) the remaining budgets are 99s, 49s and -11s
(Exhausted), not 99s, 50s, -10s as the example asserts. -/
theorem deadline_policy :
    (∀ (b : DeadlineBudget) (bytes : Nat) (elapsed : Int),
      (b.on_read bytes elapsed).remaining ≤ b.ceiling) ∧
    (∀ (b : DeadlineBudget) (elapsed : Int),
      (b.on_read 0 elapsed).remaining = min (b.remaining - elapsed) b.ceiling) ∧
    (∀ (b : DeadlineBudget) (bytes : Nat) (elapsed : Int),
      b.floor_rate ≠ 0 → 0 < bytes →
      (b.on_read bytes elapsed).remaining =
        min (b.remaining - elapsed + (bytes : Int).tdiv b.floor_rate) b.ceiling) ∧
    (∀ (b : DeadlineBudget) (bytes : Nat) (elapsed : Int),
      b.floor_rate = 0 →
      (b.on_read bytes elapsed).remaining = min (b.remaining - elapsed) b.ceiling) ∧
    ((DeadlineBudget.start 100 100 500).on_read 1000 3).remaining = 99 ∧
    (((DeadlineBudget.start 100 100 500).on_read 1000 3).on_read 0 50).remaining = 49 ∧
    ((((DeadlineBudget.start 100 100 500).on_read 1000 3).on_read 0 50).on_read 0 60).remaining = -11 ∧
    ((((DeadlineBudget.start 100 100 500).on_read 1000 3).on_read 0 50).on_read 0 60).exhausted = true ∧
    (((DeadlineBudget.start 100 100 500).on_read 1000 3).on_read 0 50).exhausted = false := by
  refine ⟨?_, ?_, ?_, ?_, by decide, by decide, by decide, by decide, by decide⟩
  · intro b bytes elapsed
    show min _ b.ceiling ≤ b.ceiling
    exact min_le_right _ _
  · intro b elapsed
    simp [DeadlineBudget.on_read]
  · intro b bytes elapsed h1 h2
    simp [DeadlineBudget.on_read, h1, h2]
  · intro b bytes elapsed h
    simp [DeadlineBudget.on_read, h]

/-- Witness for the C4 theorem: the floor-rate extension rule applied to
the example's first read. -/
theorem deadline_policy_witness :
    ((DeadlineBudget.start 100 100 500).on_read 1000 3).remaining =
      min ((DeadlineBudget.start 100 100 500).remaining - 3 +
        (1000 : Int).tdiv (DeadlineBudget.start 100 100 500).floor_rate)
        (DeadlineBudget.start 100 100 500).ceiling :=
  deadline_policy.2.2.1 (DeadlineBudget.start 100 100 500) 1000 3
    (by decide) (by decide)

/-- C2: the final-server flag is monotonic: no entry point ever resets it;
once true it stays true after any single call and after any sequence of
calls to the four entry points, for every environment, code, recipient and
exception kind. -/
theorem final_server_monotone :
    (∀ (env : Env) (state : SMTP_STATE) (c : Call),
      state.final_server = true → (stepState env state c).final_server = true) ∧
    (∀ (env : Env) (state : SMTP_STATE) (cs : List Call),
      state.final_server = true → (run env state cs).final_server = true) :=
  ⟨stepState_final_mono, run_final_mono⟩

/-- Witness for the C2 theorem: a hard recipient rejection followed by a
site failure and a stream exception on the final server leave the flag
true. -/
theorem final_server_monotone_witness :
    (stepState envOk stFinal (Call.rcpt 550 0 "user unknown")).final_server = true ∧
    (run envOk stFinal [Call.site 421 "busy", Call.stream 1 "helo",
      Call.mesg 554 "rejected"]).final_server = true :=
  ⟨final_server_monotone.1 envOk stFinal _ rfl,
   final_server_monotone.2 envOk stFinal _ rfl⟩

/-- C3 counterexample: `smtp_site_fail` with code 250 (neither soft nor
hard) and the final-server flag clear takes the disposition branch and
raises the flag, although the code is not hard and the flag was false: the
disposition branch is entered whenever the code is not soft, not only when
it is hard. -/
theorem site_fail_250_raises_flag :
    SMTP_HARD 250 = false ∧ stNonfinal.final_server = false ∧
    (stepState envOk stNonfinal (Call.site 250 "odd reply")).final_server = true := by
  decide

/-- C3 (amended): `smtp_rcpt_fail` never modifies the final-server flag,
for every code; `smtp_site_fail` and `smtp_mesg_fail` set it to true
exactly when they take the disposition branch, i.e. whenever the code is
not soft (first digit not 4) or the flag was already true on entry - for
4xx/5xx codes this coincides with "hard or already final". -/
theorem final_server_policy :
    (∀ (env : Env) (state : SMTP_STATE) (code : Int) (i : Nat) (why : String)
      (st' : SMTP_STATE) (evs : List Event),
      smtp_rcpt_fail env state code i why = .ok (st', evs) →
      st'.final_server = state.final_server) ∧
    (∀ (env : Env) (state : SMTP_STATE) (code : Int) (why : String)
      (st' : SMTP_STATE) (evs : List Event) (rv : Int),
      smtp_site_fail env state code why = .ok (st', evs, rv) →
      st'.final_server = (!SMTP_SOFT code || state.final_server)) ∧
    (∀ (env : Env) (state : SMTP_STATE) (code : Int) (why : String)
      (st' : SMTP_STATE) (evs : List Event) (rv : Int),
      smtp_mesg_fail env state code why = .ok (st', evs, rv) →
      st'.final_server = (!SMTP_SOFT code || state.final_server)) := by
  refine ⟨?_, ?_, ?_⟩
  · intro env state code i why st' evs h
    cases hget : state.request.rcpt_list[i]? with
    | none => simp [smtp_rcpt_fail, hget] at h
    | some rcpt =>
      cases hb : (SMTP_SOFT code && !state.final_server) with
      | true =>
        simp only [smtp_rcpt_fail, hget, hb, if_true, Except.ok.injEq,
          Prod.mk.injEq] at h
        obtain ⟨h1, -⟩ := h
        subst h1
        simp
      | false =>
        cases hs : state.session with
        | none => simp [smtp_rcpt_fail, hget, hb, hs] at h
        | some s =>
          simp only [smtp_rcpt_fail, hget, hb, hs, Bool.false_eq_true, if_false,
            Except.ok.injEq, Prod.mk.injEq] at h
          obtain ⟨h1, -⟩ := h
          subst h1
          simp
  · intro env state code why st' evs rv h
    cases hb : (SMTP_SOFT code && !state.final_server) with
    | true =>
      rw [site_fail_skip _ _ _ _ hb] at h
      simp only [Except.ok.injEq, Prod.mk.injEq] at h
      obtain ⟨h1, -⟩ := h
      subst h1
      obtain ⟨hsoft, hfin⟩ := Bool.and_eq_true_iff.mp hb
      have hfin' : state.final_server = false := by simpa using hfin
      simp [hsoft, hfin']
    | false =>
      rw [site_fail_dispo _ _ _ _ hb] at h
      simp only [Except.ok.injEq, Prod.mk.injEq] at h
      obtain ⟨h1, -⟩ := h
      subst h1
      rcases Bool.and_eq_false_iff.mp hb with hx | hx
      · simp [hx]
      · have : state.final_server = true := by simpa using hx
        simp [this]
  · intro env state code why st' evs rv h
    cases hb : (SMTP_SOFT code && !state.final_server) with
    | true =>
      rw [mesg_fail_skip _ _ _ _ hb] at h
      simp only [Except.ok.injEq, Prod.mk.injEq] at h
      obtain ⟨h1, -⟩ := h
      subst h1
      obtain ⟨hsoft, hfin⟩ := Bool.and_eq_true_iff.mp hb
      have hfin' : state.final_server = false := by simpa using hfin
      simp [hsoft, hfin']
    | false =>
      cases hs : state.session with
      | some s =>
        rw [mesg_fail_dispo _ _ _ _ s hs hb] at h
        simp only [Except.ok.injEq, Prod.mk.injEq] at h
        obtain ⟨h1, -⟩ := h
        subst h1
        rcases Bool.and_eq_false_iff.mp hb with hx | hx
        · simp [hx]
        · have : state.final_server = true := by simpa using hx
          simp [this]
      | none =>
        by_cases hall : ∀ r ∈ state.request.rcpt_list, r.offset = 0
        · rw [mesg_fail_none_all_zero _ _ _ _ hs hb hall] at h
          simp only [Except.ok.injEq, Prod.mk.injEq] at h
          obtain ⟨h1, -⟩ := h
          subst h1
          rcases Bool.and_eq_false_iff.mp hb with hx | hx
          · simp [hx]
          · have : state.final_server = true := by simpa using hx
            simp [this]
        · push_neg at hall
          obtain ⟨r0, hmem, hp⟩ := hall
          rw [mesg_fail_none_pending _ _ _ _ hs hb r0 hmem hp] at h
          simp at h

/-- Witness for the C3 theorem: a hard recipient rejection on the final
server leaves the flag untouched; a hard site failure raises it. -/
theorem final_server_policy_witness :
    (stepState envOk stFinal (Call.rcpt 550 0 "user unknown")).final_server =
      stFinal.final_server ∧
    (stepState envOk stNonfinal (Call.site 554 "refused")).final_server =
      (!SMTP_SOFT 554 || stNonfinal.final_server) := by
  constructor
  · exact final_server_policy.1 envOk stFinal 550 0 "user unknown" _ _ rfl
  · exact final_server_policy.2.1 envOk stNonfinal 554 "refused" _ _ _ rfl

/-- C9: only `smtp_site_fail` writes the hop-status cache, only in its
disposition branch (which, for a soft error, is reached only with the
final-server flag set), only when the error is soft and no hop status is
cached yet - first write wins; `smtp_mesg_fail`, `smtp_rcpt_fail` and
`smtp_stream_except` leave the cache unchanged in every branch. -/
theorem hop_status_policy :
    (∀ (env : Env) (state : SMTP_STATE) (code : Int) (why : String)
      (st' : SMTP_STATE) (evs : List Event) (rv : Int),
      smtp_site_fail env state code why = .ok (st', evs, rv) →
      st'.request.hop_status =
        (if SMTP_SOFT code = true ∧ state.final_server = true ∧
            state.request.hop_status = none
          then some why else state.request.hop_status)) ∧
    (∀ (env : Env) (state : SMTP_STATE) (code : Int) (why : String)
      (st' : SMTP_STATE) (evs : List Event) (rv : Int),
      smtp_mesg_fail env state code why = .ok (st', evs, rv) →
      st'.request.hop_status = state.request.hop_status) ∧
    (∀ (env : Env) (state : SMTP_STATE) (code : Int) (i : Nat) (why : String)
      (st' : SMTP_STATE) (evs : List Event),
      smtp_rcpt_fail env state code i why = .ok (st', evs) →
      st'.request.hop_status = state.request.hop_status) ∧
    (∀ (env : Env) (state : SMTP_STATE) (code : Int) (d : String)
      (st' : SMTP_STATE) (evs : List Event) (rv : Int),
      smtp_stream_except env state code d = .ok (st', evs, rv) →
      st'.request.hop_status = state.request.hop_status) := by
  refine ⟨?_, ?_, ?_, ?_⟩
  · intro env state code why st' evs rv h
    cases hb : (SMTP_SOFT code && !state.final_server) with
    | true =>
      rw [site_fail_skip _ _ _ _ hb] at h
      simp only [Except.ok.injEq, Prod.mk.injEq] at h
      obtain ⟨h1, -⟩ := h
      subst h1
      obtain ⟨hsoft, hfin⟩ := Bool.and_eq_true_iff.mp hb
      have hfin' : state.final_server = false := by simpa using hfin
      simp [hfin']
    | false =>
      rw [site_fail_dispo _ _ _ _ hb] at h
      simp only [Except.ok.injEq, Prod.mk.injEq] at h
      obtain ⟨h1, -⟩ := h
      subst h1
      rcases Bool.and_eq_false_iff.mp hb with hx | hx
      · simp [hx]
      · have hfin : state.final_server = true := by simpa using hx
        by_cases hsoft : SMTP_SOFT code = true
        · simp [hsoft, hfin]
        · have : SMTP_SOFT code = false := by simpa using hsoft
          simp [this]
  · intro env state code why st' evs rv h
    cases hb : (SMTP_SOFT code && !state.final_server) with
    | true =>
      rw [mesg_fail_skip _ _ _ _ hb] at h
      simp only [Except.ok.injEq, Prod.mk.injEq] at h
      obtain ⟨h1, -⟩ := h
      subst h1
      simp
    | false =>
      cases hs : state.session with
      | some s =>
        rw [mesg_fail_dispo _ _ _ _ s hs hb] at h
        simp only [Except.ok.injEq, Prod.mk.injEq] at h
        obtain ⟨h1, -⟩ := h
        subst h1
        simp
      | none =>
        by_cases hall : ∀ r ∈ state.request.rcpt_list, r.offset = 0
        · rw [mesg_fail_none_all_zero _ _ _ _ hs hb hall] at h
          simp only [Except.ok.injEq, Prod.mk.injEq] at h
          obtain ⟨h1, -⟩ := h
          subst h1
          simp
        · push_neg at hall
          obtain ⟨r0, hmem, hp⟩ := hall
          rw [mesg_fail_none_pending _ _ _ _ hs hb r0 hmem hp] at h
          simp at h
  · intro env state code i why st' evs h
    cases hget : state.request.rcpt_list[i]? with
    | none => simp [smtp_rcpt_fail, hget] at h
    | some rcpt =>
      cases hb : (SMTP_SOFT code && !state.final_server) with
      | true =>
        simp only [smtp_rcpt_fail, hget, hb, if_true, Except.ok.injEq,
          Prod.mk.injEq] at h
        obtain ⟨h1, -⟩ := h
        subst h1
        simp
      | false =>
        cases hs : state.session with
        | none => simp [smtp_rcpt_fail, hget, hb, hs] at h
        | some s =>
          simp only [smtp_rcpt_fail, hget, hb, hs, Bool.false_eq_true, if_false,
            Except.ok.injEq, Prod.mk.injEq] at h
          obtain ⟨h1, -⟩ := h
          subst h1
          simp
  · intro env state code d st' evs rv h
    by_cases hk : code = SMTP_ERR_EOF ∨ code = SMTP_ERR_TIME
    · cases hs : state.session with
      | none =>
        rw [stream_except_no_session _ _ _ _ hk hs] at h
        simp at h
      | some s =>
        cases hf : state.final_server with
        | false =>
          rw [stream_except_skip _ _ _ _ s hk hs hf] at h
          simp only [Except.ok.injEq, Prod.mk.injEq] at h
          obtain ⟨h1, -⟩ := h
          subst h1
          rfl
        | true =>
          rw [stream_except_final _ _ _ _ s hk hs hf] at h
          simp only [Except.ok.injEq, Prod.mk.injEq] at h
          obtain ⟨h1, -⟩ := h
          subst h1
          rfl
    · have h1 : code ≠ SMTP_ERR_EOF := fun hx => hk (Or.inl hx)
      have h2 : code ≠ SMTP_ERR_TIME := fun hx => hk (Or.inr hx)
      rw [stream_except_panic _ _ _ _ h1 h2] at h
      simp at h

/-- Witness for the C9 theorem: a soft site failure on the final server
caches its reason (nothing was cached), and a soft message failure on the
final server does not. -/
theorem hop_status_policy_witness :
    (stepState envOk stFinal (Call.site 450 "greylisted")).request.hop_status =
      (if SMTP_SOFT 450 = true ∧ stFinal.final_server = true ∧
          stFinal.request.hop_status = none
        then some "greylisted" else stFinal.request.hop_status) ∧
    (stepState envOk stFinal (Call.mesg 450 "content delayed")).request.hop_status =
      stFinal.request.hop_status := by
  constructor
  · exact hop_status_policy.1 envOk stFinal 450 "greylisted" _ _ _ rfl
  · exact hop_status_policy.2.1 envOk stFinal 450 "content delayed" _ _ _ rfl

/-- C8 counterexample: `smtp_stream_except` never calls `smtp_check_code`
and leaves the error mask untouched on every path, while the other three
entry points always classify; had it classified its argument, the mask
would have changed at this input. -/
theorem stream_skips_check_code :
    (stepState envOk stFinal (Call.stream SMTP_ERR_EOF "sending end of data")).error_mask = 0 ∧
    stFinal.error_mask = 0 ∧
    smtp_check_code stFinal SMTP_ERR_EOF ≠ stFinal ∧
    MAIL_ERROR_PROTOCOL ≠ 0 := by
  decide

/-- C8 (amended): `smtp_site_fail`, `smtp_mesg_fail` and `smtp_rcpt_fail`
run the failure code through `smtp_check_code` on every path, so their
resulting error mask is exactly the classifier's accumulation; the fourth
entry point, `smtp_stream_except`, never touches the error mask. -/
theorem error_mask_policy :
    (∀ (env : Env) (state : SMTP_STATE) (code : Int) (why : String)
      (st' : SMTP_STATE) (evs : List Event) (rv : Int),
      smtp_site_fail env state code why = .ok (st', evs, rv) →
      st'.error_mask = (smtp_check_code state code).error_mask) ∧
    (∀ (env : Env) (state : SMTP_STATE) (code : Int) (why : String)
      (st' : SMTP_STATE) (evs : List Event) (rv : Int),
      smtp_mesg_fail env state code why = .ok (st', evs, rv) →
      st'.error_mask = (smtp_check_code state code).error_mask) ∧
    (∀ (env : Env) (state : SMTP_STATE) (code : Int) (i : Nat) (why : String)
      (st' : SMTP_STATE) (evs : List Event),
      smtp_rcpt_fail env state code i why = .ok (st', evs) →
      st'.error_mask = (smtp_check_code state code).error_mask) ∧
    (∀ (env : Env) (state : SMTP_STATE) (code : Int) (d : String)
      (st' : SMTP_STATE) (evs : List Event) (rv : Int),
      smtp_stream_except env state code d = .ok (st', evs, rv) →
      st'.error_mask = state.error_mask) := by
  refine ⟨?_, ?_, ?_, ?_⟩
  · intro env state code why st' evs rv h
    cases hb : (SMTP_SOFT code && !state.final_server) with
    | true =>
      rw [site_fail_skip _ _ _ _ hb] at h
      simp only [Except.ok.injEq, Prod.mk.injEq] at h
      obtain ⟨h1, -⟩ := h
      subst h1
      rw [smtp_check_code_error_mask, smtp_check_code_error_mask]
    | false =>
      rw [site_fail_dispo _ _ _ _ hb] at h
      simp only [Except.ok.injEq, Prod.mk.injEq] at h
      obtain ⟨h1, -⟩ := h
      subst h1
      rw [smtp_check_code_error_mask, smtp_check_code_error_mask]
  · intro env state code why st' evs rv h
    cases hb : (SMTP_SOFT code && !state.final_server) with
    | true =>
      rw [mesg_fail_skip _ _ _ _ hb] at h
      simp only [Except.ok.injEq, Prod.mk.injEq] at h
      obtain ⟨h1, -⟩ := h
      subst h1
      rw [smtp_check_code_error_mask, smtp_check_code_error_mask]
    | false =>
      cases hs : state.session with
      | some s =>
        rw [mesg_fail_dispo _ _ _ _ s hs hb] at h
        simp only [Except.ok.injEq, Prod.mk.injEq] at h
        obtain ⟨h1, -⟩ := h
        subst h1
        rw [smtp_check_code_error_mask, smtp_check_code_error_mask]
      | none =>
        by_cases hall : ∀ r ∈ state.request.rcpt_list, r.offset = 0
        · rw [mesg_fail_none_all_zero _ _ _ _ hs hb hall] at h
          simp only [Except.ok.injEq, Prod.mk.injEq] at h
          obtain ⟨h1, -⟩ := h
          subst h1
          rw [smtp_check_code_error_mask, smtp_check_code_error_mask]
        · push_neg at hall
          obtain ⟨r0, hmem, hp⟩ := hall
          rw [mesg_fail_none_pending _ _ _ _ hs hb r0 hmem hp] at h
          simp at h
  · intro env state code i why st' evs h
    cases hget : state.request.rcpt_list[i]? with
    | none => simp [smtp_rcpt_fail, hget] at h
    | some rcpt =>
      cases hb : (SMTP_SOFT code && !state.final_server) with
      | true =>
        simp only [smtp_rcpt_fail, hget, hb, if_true, Except.ok.injEq,
          Prod.mk.injEq] at h
        obtain ⟨h1, -⟩ := h
        subst h1
        simp [smtp_check_code_error_mask]
      | false =>
        cases hs : state.session with
        | none => simp [smtp_rcpt_fail, hget, hb, hs] at h
        | some s =>
          simp only [smtp_rcpt_fail, hget, hb, hs, Bool.false_eq_true, if_false,
            Except.ok.injEq, Prod.mk.injEq] at h
          obtain ⟨h1, -⟩ := h
          subst h1
          simp [smtp_check_code_error_mask]
  · intro env state code d st' evs rv h
    by_cases hk : code = SMTP_ERR_EOF ∨ code = SMTP_ERR_TIME
    · cases hs : state.session with
      | none =>
        rw [stream_except_no_session _ _ _ _ hk hs] at h
        simp at h
      | some s =>
        cases hf : state.final_server with
        | false =>
          rw [stream_except_skip _ _ _ _ s hk hs hf] at h
          simp only [Except.ok.injEq, Prod.mk.injEq] at h
          obtain ⟨h1, -⟩ := h
          subst h1
          rfl
        | true =>
          rw [stream_except_final _ _ _ _ s hk hs hf] at h
          simp only [Except.ok.injEq, Prod.mk.injEq] at h
          obtain ⟨h1, -⟩ := h
          subst h1
          rfl
    · have h1 : code ≠ SMTP_ERR_EOF := fun hx => hk (Or.inl hx)
      have h2 : code ≠ SMTP_ERR_TIME := fun hx => hk (Or.inr hx)
      rw [stream_except_panic _ _ _ _ h1 h2] at h
      simp at h

/-- Witness for the C8 theorem: a 555 reply to MAIL FROM on the final
server sets the protocol-anomaly bit through the classifier. -/
theorem error_mask_policy_witness :
    (stepState envOk stFinal (Call.mesg 555 "bad parameter")).error_mask =
      (smtp_check_code stFinal 555).error_mask :=
  error_mask_policy.2.1 envOk stFinal 555 "bad parameter" _ _ _ rfl

theorem appendEvent_args (soft : Bool) (a0 a : AppendArgs) (res0 res : Int)
    (h : appendEvent soft a0 res0 = Event.deferCall a res ∨
         appendEvent soft a0 res0 = Event.bounceCall a res) : a = a0 := by
  cases soft <;> rcases h with h | h <;> simp [appendEvent] at h <;> exact h.1.symm

/-- C10 counterexample: `smtp_mesg_fail` does not read the session
identity on its informational-skip path, so it succeeds with no active
session there - a present session is not an unconditional precondition of
`smtp_mesg_fail` (nor of `smtp_rcpt_fail`), contrary to the claim; only
the disposition paths that reach a collaborator call dereference it. -/
theorem mesg_fail_ok_without_session :
    stNoSession.session = none ∧ SMTP_SOFT 421 = true ∧
    stNoSession.final_server = false ∧
    (smtp_mesg_fail envOk stNoSession 421 "busy").isOk = true := by
  refine ⟨rfl, by decide, rfl, rfl⟩

/-- C10 (amended): `smtp_site_fail` is total in the session argument and
passes the literal host identity "none" to the collaborators when no
session is active; `smtp_stream_except` with a recognized kind reads the
session unconditionally, so an absent session always aborts it;
`smtp_mesg_fail` and `smtp_rcpt_fail` read the session only in their
disposition branch (for `smtp_mesg_fail`, only when a pending recipient
makes the loop body run), so an absent session aborts exactly those
paths. -/
theorem session_requirement_policy :
    (∀ (env : Env) (state : SMTP_STATE) (code : Int) (why : String),
      (smtp_site_fail env state code why).isOk = true) ∧
    (∀ (env : Env) (state : SMTP_STATE) (code : Int) (why : String)
      (st' : SMTP_STATE) (evs : List Event) (rv : Int),
      state.session = none →
      smtp_site_fail env state code why = .ok (st', evs, rv) →
      ∀ ev ∈ evs, ∀ (a : AppendArgs) (res : Int),
        (ev = Event.deferCall a res ∨ ev = Event.bounceCall a res) →
        a.namaddr = "none") ∧
    (∀ (env : Env) (state : SMTP_STATE) (code : Int) (d : String),
      (code = SMTP_ERR_EOF ∨ code = SMTP_ERR_TIME) → state.session = none →
      smtp_stream_except env state code d = .error .nullSession) ∧
    (∀ (env : Env) (state : SMTP_STATE) (code : Int) (why : String),
      (SMTP_SOFT code && !state.final_server) = true →
      (smtp_mesg_fail env state code why).isOk = true) ∧
    (∀ (env : Env) (state : SMTP_STATE) (code : Int) (why : String)
      (r0 : Recipient), state.session = none →
      (SMTP_SOFT code && !state.final_server) = false →
      r0 ∈ state.request.rcpt_list → r0.offset ≠ 0 →
      smtp_mesg_fail env state code why = .error .nullSession) ∧
    (∀ (env : Env) (state : SMTP_STATE) (code : Int) (i : Nat) (why : String)
      (rcpt : Recipient), state.request.rcpt_list[i]? = some rcpt →
      (SMTP_SOFT code && !state.final_server) = true →
      (smtp_rcpt_fail env state code i why).isOk = true) ∧
    (∀ (env : Env) (state : SMTP_STATE) (code : Int) (i : Nat) (why : String)
      (rcpt : Recipient), state.session = none →
      state.request.rcpt_list[i]? = some rcpt →
      (SMTP_SOFT code && !state.final_server) = false →
      smtp_rcpt_fail env state code i why = .error .nullSession) := by
  refine ⟨?_, ?_, ?_, ?_, ?_, ?_, ?_⟩
  · intro env state code why
    cases hb : (SMTP_SOFT code && !state.final_server) with
    | true => rw [site_fail_skip _ _ _ _ hb]; rfl
    | false => rw [site_fail_dispo _ _ _ _ hb]; rfl
  · intro env state code why st' evs rv hs h ev hev a res hor
    cases hb : (SMTP_SOFT code && !state.final_server) with
    | true =>
      rw [site_fail_skip _ _ _ _ hb] at h
      simp only [Except.ok.injEq, Prod.mk.injEq] at h
      obtain ⟨-, h2, -⟩ := h
      subst h2
      simp only [List.mem_singleton] at hev
      subst hev
      rcases hor with hx | hx <;> simp at hx
    | false =>
      rw [site_fail_dispo _ _ _ _ hb] at h
      simp only [Except.ok.injEq, Prod.mk.injEq] at h
      obtain ⟨-, h2, -⟩ := h
      subst h2
      have hna : siteNamaddr state = "none" := by simp [siteNamaddr, hs]
      rcases loopEvents_mem hev with ⟨r, -, -, hevEq⟩ | ⟨r, -, -, -, hevEq⟩
      · subst hevEq
        have ha := appendEvent_args _ _ _ _ _ hor
        rw [ha]
        exact hna
      · subst hevEq
        rcases hor with hx | hx <;> simp at hx
  · intro env state code d hk hs
    exact stream_except_no_session _ _ _ _ hk hs
  · intro env state code why hb
    rw [mesg_fail_skip _ _ _ _ hb]
    rfl
  · intro env state code why r0 hs hb hmem hp
    exact mesg_fail_none_pending _ _ _ _ hs hb r0 hmem hp
  · intro env state code i why rcpt hget hb
    simp only [smtp_rcpt_fail, hget, hb, if_true]
    rfl
  · intro env state code i why rcpt hs hget hb
    simp [smtp_rcpt_fail, hget, hb, hs]

/-- Witness for the C10 theorem: a hard site failure with no session
succeeds, and a timeout stream exception with no session aborts. -/
theorem session_requirement_policy_witness :
    (smtp_site_fail envOk stNoSession 550 "host refused").isOk = true ∧
    smtp_stream_except envOk stNoSession SMTP_ERR_TIME "reading greeting" =
      .error .nullSession :=
  ⟨session_requirement_policy.1 envOk stNoSession 550 "host refused",
   session_requirement_policy.2.2.1 envOk stNoSession SMTP_ERR_TIME
     "reading greeting" (Or.inr rfl) rfl⟩

theorem streamEvents_mem_of {args : Recipient → AppendArgs}
    {res : Recipient → Int} {rs : List Recipient} {r : Recipient}
    (hmem : r ∈ rs) (hp : r.offset ≠ 0) :
    Event.deferCall (args r) (res r) ∈ streamEvents args res rs := by
  unfold streamEvents
  exact List.mem_map.mpr ⟨r, List.mem_filter.mpr ⟨hmem, by simpa using hp⟩, rfl⟩

/-- C5: `smtp_stream_except` on a recognized exception kind (EOF or
timeout) with the final-server flag clear only logs an informational
record (the request, hence every marker, is unchanged); with the flag set
it issues exactly one `defer_append` - never `bounce_append` - per pending
recipient, with the reason composed from the session identity and the
description; an unrecognized kind is a `msg_panic` abort. -/
theorem stream_except_disposition :
    ∀ (env : Env) (state : SMTP_STATE) (code : Int) (description : String)
      (s : Session),
      state.session = some s →
      (code = SMTP_ERR_EOF ∨ code = SMTP_ERR_TIME) →
      ((state.final_server = false →
        smtp_stream_except env state code description =
          .ok ({ state with status := cOr state.status (-1) },
            [Event.msgInfo state.request.queue_id
              (streamWhy code s.namaddr description)], -1)) ∧
       (state.final_server = true →
        ∃ st' evs, smtp_stream_except env state code description = .ok (st', evs, -1) ∧
          st'.request = state.request ∧
          (∀ ev ∈ evs, ∀ (a : AppendArgs) (res : Int), ev ≠ Event.bounceCall a res) ∧
          (∀ r ∈ state.request.rcpt_list, r.offset ≠ 0 →
            Event.deferCall
              (hostArgs state s.namaddr (streamWhy code s.namaddr description) r)
              (env.defer_append (hostArgs state s.namaddr
                (streamWhy code s.namaddr description) r)) ∈ evs) ∧
          (∀ ev ∈ evs, ∃ r ∈ state.request.rcpt_list, r.offset ≠ 0 ∧
            ev = Event.deferCall
              (hostArgs state s.namaddr (streamWhy code s.namaddr description) r)
              (env.defer_append (hostArgs state s.namaddr
                (streamWhy code s.namaddr description) r))))) ∧
      (∀ c : Int, c ≠ SMTP_ERR_EOF → c ≠ SMTP_ERR_TIME →
        smtp_stream_except env state c description = .error (.panicUnknown c)) := by
  intro env state code description s hs hk
  refine ⟨⟨?_, ?_⟩, ?_⟩
  · intro hf
    exact stream_except_skip env state code description s hk hs hf
  · intro hf
    refine ⟨_, _, stream_except_final env state code description s hk hs hf,
      rfl, ?_, ?_, ?_⟩
    · intro ev hev a res
      obtain ⟨r, -, -, hevEq⟩ := streamEvents_mem hev
      subst hevEq
      simp
    · intro r hmem hp
      exact streamEvents_mem_of hmem hp
    · intro ev hev
      obtain ⟨r, hmem, hp, hevEq⟩ := streamEvents_mem hev
      exact ⟨r, hmem, hp, hevEq⟩
  · intro c h1 h2
    exact stream_except_panic env state c description h1 h2

/-- Witness for the C5 theorem: a lost connection with more servers left
only logs the composed reason. -/
theorem stream_except_disposition_witness :
    smtp_stream_except envOk stNonfinal SMTP_ERR_EOF "sending DATA" =
      .ok ({ stNonfinal with status := cOr stNonfinal.status (-1) },
        [Event.msgInfo stNonfinal.request.queue_id
          (streamWhy SMTP_ERR_EOF sessW.namaddr "sending DATA")], -1) :=
  (stream_except_disposition envOk stNonfinal SMTP_ERR_EOF "sending DATA" sessW
    rfl (Or.inl rfl)).1.1 rfl

theorem finalize_forall₂ (res : Recipient → Int) (rs : List Recipient) :
    List.Forall₂ (fun r r' =>
      (r.offset = 0 ∧ r' = r) ∨
      (r.offset ≠ 0 ∧ res r = 0 ∧ r' = { r with offset := 0 }) ∨
      (r.offset ≠ 0 ∧ res r ≠ 0 ∧ r' = r))
    rs (rs.map (finalizeMap res)) := by
  induction rs with
  | nil => exact List.Forall₂.nil
  | cons r rs ih =>
    refine List.Forall₂.cons ?_ ih
    by_cases h : r.offset = 0
    · exact Or.inl ⟨h, finalizeMap_zero h⟩
    · by_cases hz : res r = 0
      · exact Or.inr (Or.inl ⟨h, hz, by simp [finalizeMap, h, hz]⟩)
      · exact Or.inr (Or.inr ⟨h, hz, by simp [finalizeMap, h, hz]⟩)

/-- C6 counterexample: in `smtp_stream_except`'s final-server loop the
defer collaborator returns 0, yet `deliver_completed` is never invoked and
the recipient's offset is not cleared - the trace holds only the defer
call and the state (offset still 5) is returned unchanged, contradicting
the claim for this finalization site. -/
theorem stream_finalize_not_atomic :
    envOk.defer_append (mkAppendArgs 0 "QID42" 7 "mx.example[192.0.2.1]"
      "lost connection with mx.example[192.0.2.1] while sending DATA" rcptP) = 0 ∧
    rcptP.offset = 5 ∧
    step envOk stFinal (Call.stream SMTP_ERR_EOF "sending DATA") =
      (stFinal,
       [Event.deferCall (mkAppendArgs 0 "QID42" 7 "mx.example[192.0.2.1]"
         "lost connection with mx.example[192.0.2.1] while sending DATA" rcptP) 0]) := by
  decide

/-- C6 (amended): in `smtp_site_fail`, `smtp_mesg_fail` and
`smtp_rcpt_fail` finalization is atomic in the collaborator result: a zero
result clears the marker and notifies `deliver_completed` with the
original offset, a non-zero result leaves the recipient untouched, and the
result is or-ed into the cumulative status either way; `smtp_stream_except`
or-es the defer results into the status but never clears a marker and
never calls `deliver_completed`, whatever the results. -/
theorem finalize_atomicity :
    (∀ (env : Env) (state : SMTP_STATE) (code : Int) (why : String)
      (st' : SMTP_STATE) (evs : List Event) (rv : Int),
      (SMTP_SOFT code && !state.final_server) = false →
      smtp_site_fail env state code why = .ok (st', evs, rv) →
      List.Forall₂ (fun r r' =>
        (r.offset = 0 ∧ r' = r) ∨
        (r.offset ≠ 0 ∧
          hostRes env (SMTP_SOFT code) state (siteNamaddr state) why r = 0 ∧
          r' = { r with offset := 0 }) ∨
        (r.offset ≠ 0 ∧
          hostRes env (SMTP_SOFT code) state (siteNamaddr state) why r ≠ 0 ∧
          r' = r))
        state.request.rcpt_list st'.request.rcpt_list ∧
      (∀ r ∈ state.request.rcpt_list, r.offset ≠ 0 →
        hostRes env (SMTP_SOFT code) state (siteNamaddr state) why r = 0 →
        Event.deliverCompleted state.src r.offset ∈ evs) ∧
      st'.status = loopStatus
        (hostRes env (SMTP_SOFT code) state (siteNamaddr state) why)
        state.status state.request.rcpt_list) ∧
    (∀ (env : Env) (state : SMTP_STATE) (code : Int) (why : String)
      (s : Session) (st' : SMTP_STATE) (evs : List Event) (rv : Int),
      state.session = some s →
      (SMTP_SOFT code && !state.final_server) = false →
      smtp_mesg_fail env state code why = .ok (st', evs, rv) →
      List.Forall₂ (fun r r' =>
        (r.offset = 0 ∧ r' = r) ∨
        (r.offset ≠ 0 ∧ hostRes env (SMTP_SOFT code) state s.namaddr why r = 0 ∧
          r' = { r with offset := 0 }) ∨
        (r.offset ≠ 0 ∧ hostRes env (SMTP_SOFT code) state s.namaddr why r ≠ 0 ∧
          r' = r))
        state.request.rcpt_list st'.request.rcpt_list ∧
      (∀ r ∈ state.request.rcpt_list, r.offset ≠ 0 →
        hostRes env (SMTP_SOFT code) state s.namaddr why r = 0 →
        Event.deliverCompleted state.src r.offset ∈ evs) ∧
      st'.status = loopStatus (hostRes env (SMTP_SOFT code) state s.namaddr why)
        state.status state.request.rcpt_list) ∧
    (∀ (env : Env) (state : SMTP_STATE) (code : Int) (i : Nat) (why : String)
      (rcpt : Recipient) (s : Session) (st' : SMTP_STATE) (evs : List Event),
      state.request.rcpt_list[i]? = some rcpt →
      state.session = some s →
      (SMTP_SOFT code && !state.final_server) = false →
      smtp_rcpt_fail env state code i why = .ok (st', evs) →
      (appendResult env (SMTP_SOFT code) (hostArgs state s.namaddr why rcpt) = 0 →
        st'.request.rcpt_list[i]? = some { rcpt with offset := 0 } ∧
        evs = [appendEvent (SMTP_SOFT code) (hostArgs state s.namaddr why rcpt)
            (appendResult env (SMTP_SOFT code) (hostArgs state s.namaddr why rcpt)),
          Event.deliverCompleted state.src rcpt.offset]) ∧
      (appendResult env (SMTP_SOFT code) (hostArgs state s.namaddr why rcpt) ≠ 0 →
        st'.request.rcpt_list[i]? = some rcpt ∧
        evs = [appendEvent (SMTP_SOFT code) (hostArgs state s.namaddr why rcpt)
            (appendResult env (SMTP_SOFT code) (hostArgs state s.namaddr why rcpt))]) ∧
      st'.status = cOr state.status
        (appendResult env (SMTP_SOFT code) (hostArgs state s.namaddr why rcpt))) := by
  refine ⟨?_, ?_, ?_⟩
  · intro env state code why st' evs rv hb h
    rw [site_fail_dispo _ _ _ _ hb] at h
    simp only [Except.ok.injEq, Prod.mk.injEq] at h
    obtain ⟨h1, h2, -⟩ := h
    subst h1
    subst h2
    refine ⟨?_, ?_, by simp⟩
    · simpa using finalize_forall₂
        (hostRes env (SMTP_SOFT code) state (siteNamaddr state) why)
        state.request.rcpt_list
    · intro r hmem hp hz
      exact loopEvents_deliver_mem hmem hp hz
  · intro env state code why s st' evs rv hs hb h
    rw [mesg_fail_dispo _ _ _ _ s hs hb] at h
    simp only [Except.ok.injEq, Prod.mk.injEq] at h
    obtain ⟨h1, h2, -⟩ := h
    subst h1
    subst h2
    refine ⟨?_, ?_, by simp⟩
    · simpa using finalize_forall₂
        (hostRes env (SMTP_SOFT code) state s.namaddr why)
        state.request.rcpt_list
    · intro r hmem hp hz
      exact loopEvents_deliver_mem hmem hp hz
  · intro env state code i why rcpt s st' evs hget hs hb h
    have hlen : i < state.request.rcpt_list.length :=
      (List.getElem?_eq_some.mp hget).1
    by_cases hz : appendResult env (SMTP_SOFT code)
        (mkAppendArgs (DEL_REQ_TRACE_FLAGS state.request.flags)
          state.request.queue_id state.request.arrival_time
          s.namaddr why rcpt) = 0
    · simp only [smtp_rcpt_fail, hget, hb, hs, Bool.false_eq_true, if_false,
        hz, if_true, Except.ok.injEq, Prod.mk.injEq] at h
      obtain ⟨h1, h2⟩ := h
      subst h1
      subst h2
      refine ⟨fun _ => ⟨?_, by simp [appendEvent, hostArgs, hz]⟩,
        fun hcon => absurd hz hcon, by simp [hostArgs, hz]⟩
      simp [List.getElem?_set, hlen]
    · simp only [smtp_rcpt_fail, hget, hb, hs, Bool.false_eq_true, if_false,
        hz, Except.ok.injEq, Prod.mk.injEq] at h
      obtain ⟨h1, h2⟩ := h
      subst h1
      subst h2
      refine ⟨fun hcon => absurd hcon hz, fun _ => ⟨?_, by simp [appendEvent, hostArgs]⟩,
        by simp [hostArgs]⟩
      simp [List.getElem?_set, hlen, hget]

/-- Witness for the C6 theorem: a hard recipient rejection whose bounce
record persists clears the marker and notifies completion. -/
theorem finalize_atomicity_witness :
    (stepState envOk stFinal (Call.rcpt 550 0 "no such user")).request.rcpt_list[0]? =
      some { rcptP with offset := 0 } := by
  have h := finalize_atomicity.2.2 envOk stFinal 550 0 "no such user" rcptP sessW
    _ _ rfl rfl (by decide) rfl
  exact (h.1 (by decide)).1

/-- C1 counterexample: calling `smtp_rcpt_fail` twice on the same
recipient finalizes it twice: the first call clears the marker, yet the
second call still issues a `bounce_append` (with offset 0) and a
`deliver_completed` for the same recipient, because `smtp_rcpt_fail` -
unlike the three loops - never checks the marker before finalizing. -/
theorem rcpt_double_finalize :
    rcptP.offset = 5 ∧
    (stepState envOk stFinal (Call.rcpt 550 0 "unknown user")).request.rcpt_list[0]? =
      some { rcptP with offset := 0 } ∧
    (step envOk (stepState envOk stFinal (Call.rcpt 550 0 "unknown user"))
        (Call.rcpt 550 0 "unknown user")).2 =
      [Event.bounceCall (mkAppendArgs 0 "QID42" 7 "mx.example[192.0.2.1]"
        "unknown user" { rcptP with offset := 0 }) 0,
       Event.deliverCompleted 3 0] := by
  decide

/-- C1 (amended): after any call to any of the four entry points the
ledger's length is unchanged, so finalized plus pending recipients always
equal N (also after any sequence of calls); a marker is only ever cleared,
never rewritten or resurrected; and no finalization (defer/bounce) event
ever names an already-cleared offset - provided a `rcpt_fail` call only
targets a pending recipient, since `smtp_rcpt_fail` itself never checks
the marker (the three finalization loops do skip cleared markers). -/
theorem marker_ledger_invariant :
    (∀ (env : Env) (state : SMTP_STATE) (c : Call),
      (stepState env state c).request.rcpt_list.length =
        state.request.rcpt_list.length ∧
      (∀ (i : Nat) (r' : Recipient),
        (stepState env state c).request.rcpt_list[i]? = some r' →
        ∃ r, state.request.rcpt_list[i]? = some r ∧
          (r' = r ∨ r' = { r with offset := 0 })) ∧
      (∀ (i : Nat) (r : Recipient),
        state.request.rcpt_list[i]? = some r → r.offset = 0 →
        (stepState env state c).request.rcpt_list[i]? = some r) ∧
      (rcptCallPending state c →
        ∀ ev ∈ (step env state c).2, ∀ o : Nat,
          finalizeOffset ev = some o → o ≠ 0)) ∧
    (∀ (env : Env) (state : SMTP_STATE) (cs : List Call),
      finalizedCount (run env state cs) + pendingCount (run env state cs) =
        state.request.rcpt_list.length) := by
  constructor
  · intro env state c
    exact ⟨stepState_length env state c, stepState_marker env state c,
      stepState_zero_stays env state c, step_events_offsets env state c⟩
  · intro env state cs
    rw [count_split (run env state cs), run_length]

/-- Witness for the C1 theorem: after a hard site failure that bounces the
pending recipient, the ledger still partitions into 2 recipients and the
already-finalized one is untouched. -/
theorem marker_ledger_invariant_witness :
    (stepState envOk stFinal (Call.site 554 "refused")).request.rcpt_list.length =
      stFinal.request.rcpt_list.length ∧
    (stepState envOk stFinal (Call.site 554 "refused")).request.rcpt_list[1]? =
      some rcptF ∧
    finalizedCount (run envOk stFinal [Call.site 554 "refused"]) +
      pendingCount (run envOk stFinal [Call.site 554 "refused"]) =
      stFinal.request.rcpt_list.length := by
  refine ⟨(marker_ledger_invariant.1 envOk stFinal (Call.site 554 "refused")).1, ?_, ?_⟩
  · exact (marker_ledger_invariant.1 envOk stFinal (Call.site 554 "refused")).2.2.1
      1 rcptF (by decide) (by decide)
  · exact marker_ledger_invariant.2 envOk stFinal [Call.site 554 "refused"]
